import Mathlib

/-!
# Order form of the airline home screen

A shallow embedding of `src/screens/AirlineHomeScreen.js`: the component state
held in `useState` cells becomes the record `Screen`, every event handler becomes
a function on `Screen`, and the `useEffect` that recomputes the vehicle group is
run by `commitRender` after each handler, when its dependency
`employees.length` differs from the value of the previous render.
-/

namespace AirlineHome

/-! ## Vehicle groups -/

/-- One entry of the `VEH_GROUPS` table. -/
structure VehGroupEntry where
  key : String
  label : String
deriving DecidableEq, Repr

/-- The table `VEH_GROUPS` of the four selectable vehicle groups. -/
def VEH_GROUPS : List VehGroupEntry :=
  [ { key := "1-4", label := "1-4" },
    { key := "6-8", label := "6-8" },
    { key := "10-15", label := "10-15" },
    { key := "30-40", label := "30-40" } ]

/-- The function `chooseGroupByCount(n)`. -/
def chooseGroupByCount (n : Nat) : String :=
  if n ≤ 4 then "1-4"
  else if n ≤ 8 then "6-8"
  else if n ≤ 15 then "10-15"
  else "30-40"

/-- The expression `a || b` on numbers: `b` when `a` is zero, else `a`. -/
def jsOrNat (a b : Nat) : Nat := if a = 0 then b else a

/-- The suggestion as the form applies it:
`chooseGroupByCount(employees.length || 1)`. -/
def autoGroup (employeeCount : Nat) : String :=
  chooseGroupByCount (jsOrNat employeeCount 1)

/-- The keys of `VEH_GROUPS`, in table order. -/
def vehGroupKeys : List String := VEH_GROUPS.map (fun g => g.key)

/-- Position of a key in `VEH_GROUPS` (the table length when it is absent). -/
def bucketIndex (k : String) : Nat := vehGroupKeys.indexOf k

/-- A bucket of the auto-suggestion rule as the specification words it:
a key together with the largest passenger count it serves. -/
structure Bucket where
  key : String
  upper : Nat
deriving DecidableEq, Repr

/-- The four buckets with their upper bounds 4, 8, 15 and 40, smallest first. -/
def specBuckets : List Bucket :=
  [ { key := "1-4", upper := 4 },
    { key := "6-8", upper := 8 },
    { key := "10-15", upper := 15 },
    { key := "30-40", upper := 40 } ]

/-- The auto-suggestion rule in the specification's words: the smallest bucket
whose upper bound is at least `n`, and the largest bucket when there is none. -/
def suggestVehicleGroup (n : Nat) : String :=
  match specBuckets.find? (fun b => decide (n ≤ b.upper)) with
  | some b => b.key
  | none => "30-40"

/-! ## Strings and numbers of the host language -/

/-- The characters `String.prototype.trim` removes: the white space and line
terminator code points of the language standard. -/
def isJsWhiteSpace (c : Char) : Bool :=
  let n := c.toNat
  n == 0x09 || n == 0x0A || n == 0x0B || n == 0x0C || n == 0x0D || n == 0x20 ||
  n == 0xA0 || n == 0x1680 || (0x2000 ≤ n && n ≤ 0x200A) || n == 0x2028 ||
  n == 0x2029 || n == 0x202F || n == 0x205F || n == 0x3000 || n == 0xFEFF

/-- The method `s.trim()`: white space removed at both ends. -/
def jsTrim (s : String) : String :=
  String.mk ((s.data.dropWhile isJsWhiteSpace).reverse.dropWhile isJsWhiteSpace).reverse

/-- Truthiness of a string: every string but the empty one. -/
def jsTruthyStr (s : String) : Bool := !(s == "")

/-- The expression `a || b` on strings: `b` when `a` is empty, else `a`. -/
def jsOrStr (a b : String) : String := if a = "" then b else a

/-- The conversion `String(i)` of an integer-valued number: the decimal digits,
after a minus sign when `i` is negative. -/
def jsStringOfInt : Int → String
  | Int.ofNat n => Nat.repr n
  | Int.negSucc n => "-" ++ Nat.repr (n + 1)

/-! ## Data model -/

/-- A picked point `{ lat, lng }`. -/
structure Coords where
  lat : ℚ
  lng : ℚ
deriving DecidableEq, Repr

/-- An employee record `{ id, name, dept }`; `dept` may be missing. -/
structure Employee where
  id : String
  name : String
  dept : Option String
deriving DecidableEq, Repr

/-- A `Date` value, read through its local calendar fields. -/
structure JsDate where
  year : Int
  month : Int
  day : Int
  hours : Int
  minutes : Int
  seconds : Int
  ms : Int
deriving DecidableEq, Repr

/-- The endpoint a map session was opened for: `"from"` or `"to"`. -/
inductive Target where
  | from_
  | to_
deriving DecidableEq, Repr

/-- The cell `mapModal`: `{ open, target }`. -/
structure MapModal where
  open_ : Bool
  target : Target
deriving DecidableEq, Repr

/-- The `requirements` part of an order. -/
structure Requirements where
  pax : Nat
  vehicleGroup : String
  notes : String
deriving DecidableEq, Repr

/-- The `timeline` part of an order; `none` stands for `null`. -/
structure Timeline where
  createdAt : Option String
  assignedAt : Option String
  arrivedAtPickup : Option String
  departedAt : Option String
  arrivedAtDropoff : Option String
  finishedAt : Option String
  travelTimeSec : Option Nat
deriving DecidableEq, Repr

/-- The `ratings` part of an order; `none` stands for `null`. -/
structure Ratings where
  driver : Option Nat
  passenger : Option Nat
deriving DecidableEq, Repr

/-- The order object built by `createOrder`. -/
structure Order where
  id : String
  status : String
  from_ : String
  to_ : String
  date : String
  fromCoords : Option Coords
  toCoords : Option Coords
  employees : List Employee
  requirements : Requirements
  timeline : Timeline
  ratings : Ratings
deriving DecidableEq, Repr

/-- The `useState` cells of `AirlineHomeScreen`. -/
structure Screen where
  activeOrder : Option Order
  from_ : String
  to_ : String
  fromCoords : Option Coords
  toCoords : Option Coords
  employees : List Employee
  vehGroup : String
  notes : String
  empModal : Bool
  mapModal : MapModal
  date : JsDate
  showDate : Bool
  showTime : Bool
deriving DecidableEq, Repr

/-- A call of `Alert.alert(title, message)`. -/
structure Alert where
  title : String
  message : String
deriving DecidableEq, Repr

/-- The initial values of the cells; `now` is the `new Date()` read at mount. -/
def initialScreen (now : JsDate) : Screen :=
  { activeOrder := none
    from_ := ""
    to_ := ""
    fromCoords := none
    toCoords := none
    employees := []
    vehGroup := "1-4"
    notes := ""
    empModal := false
    mapModal := { open_ := false, target := Target.from_ }
    date := now
    showDate := false
    showTime := false }

/-! ## The effect and the render cycle -/

/-- The body of the effect:
`setVehGroup(chooseGroupByCount(employees.length || 1))`. -/
def vehGroupEffect (s : Screen) : Screen :=
  { s with vehGroup := chooseGroupByCount (jsOrNat s.employees.length 1) }

/-- The render that follows a handler: the effect, whose dependency list is
`[employees.length]`, runs when that value differs from the previous render's. -/
def commitRender (prev next : Screen) : Screen :=
  if next.employees.length = prev.employees.length then next else vehGroupEffect next

/-- The state once the component is mounted: the effect runs after the first
render. -/
def mountScreen (now : JsDate) : Screen := vehGroupEffect (initialScreen now)

/-! ## Handlers -/

/-- The memo `canCreate`, as a truth value:
`from.trim() && to.trim() && employees.length > 0`. -/
def canCreate (s : Screen) : Bool :=
  jsTruthyStr (jsTrim s.from_) && jsTruthyStr (jsTrim s.to_) && decide (s.employees.length > 0)

/-- Readiness in the specification's words: each endpoint has a non-empty
address label or a coordinate, and the employee list is non-empty. -/
def isReadySpec (s : Screen) : Bool :=
  (jsTruthyStr s.from_ || s.fromCoords.isSome) &&
  (jsTruthyStr s.to_ || s.toCoords.isSome) &&
  !s.employees.isEmpty

/-- The function `resetForm`; `now` is the `new Date()` read inside it. -/
def resetForm (now : JsDate) (s : Screen) : Screen :=
  { s with
    from_ := ""
    to_ := ""
    fromCoords := none
    toCoords := none
    employees := []
    vehGroup := "1-4"
    notes := ""
    date := now
    showDate := false
    showTime := false
    empModal := false
    mapModal := { open_ := false, target := Target.from_ } }

/-- The order id `String(Math.floor(x))`, where `x` is the value of the floating
product `Math.random() * 100000`, a number with `0 ≤ x < 100000`. -/
def orderId (x : ℚ) : String := jsStringOfInt ⌊x⌋

/-- The order object of `createOrder`. `toISOString` is the method of that name,
`x` the value of `Math.random() * 100000`, `nowCreated` the `new Date()` read for
`timeline.createdAt`. -/
def buildOrder (toISOString : JsDate → String) (x : ℚ) (nowCreated : JsDate)
    (s : Screen) : Order :=
  { id := orderId x
    status := "pending"
    from_ := s.from_
    to_ := s.to_
    date := toISOString s.date
    fromCoords := s.fromCoords
    toCoords := s.toCoords
    employees := s.employees
    requirements :=
      { pax := max 1 s.employees.length
        vehicleGroup := s.vehGroup
        notes := s.notes }
    timeline :=
      { createdAt := some (toISOString nowCreated)
        assignedAt := none
        arrivedAtPickup := none
        departedAt := none
        arrivedAtDropoff := none
        finishedAt := none
        travelTimeSec := none }
    ratings := { driver := none, passenger := none } }

/-- The handler `createOrder`: the cells it leaves and the alert it shows.
`nowReset` is the `new Date()` read by `resetForm`. -/
def createOrder (toISOString : JsDate → String) (x : ℚ) (nowCreated nowReset : JsDate)
    (s : Screen) : Screen × Alert :=
  if !canCreate s then
    (s, { title := "Заполните поля", message := "Откуда, Куда и выберите сотрудников" })
  else
    let order := buildOrder toISOString x nowCreated s
    (resetForm nowReset { s with activeOrder := some order },
     { title := "Заявка создана", message := "#" ++ order.id ++ " отправлена диспетчеру" })

/-- A press on the create button, followed by the render. -/
def pressCreate (toISOString : JsDate → String) (x : ℚ) (nowCreated nowReset : JsDate)
    (s : Screen) : Screen × Alert :=
  let r := createOrder toISOString x nowCreated nowReset s
  (commitRender s r.1, r.2)

/-- The confirmed cancel of the active order:
`setActiveOrder(null); resetForm();`, followed by the render. -/
def confirmCancel (nowReset : JsDate) (s : Screen) : Screen :=
  commitRender s (resetForm nowReset { s with activeOrder := none })

/-- The employee picker's `onDone`: `setEmployees(list)`. -/
def onDone (list : List Employee) (s : Screen) : Screen :=
  { s with employees := list }

/-- The employee picker's `onClose`: `setEmpModal(false)`. -/
def onCloseEmp (s : Screen) : Screen := { s with empModal := false }

/-- The picker's `done()` as the screen sees it: `onDone(list)` then `onClose()`,
followed by the render. -/
def updateEmployees (list : List Employee) (s : Screen) : Screen :=
  commitRender s (onCloseEmp (onDone list s))

/-- A press on the select-employees button: `setEmpModal(true)`. -/
def openEmp (s : Screen) : Screen := commitRender s { s with empModal := true }

/-- A press on the group button of a `VEH_GROUPS` entry: `setVehGroup(g.key)`. -/
def setVehGroup (key : String) (s : Screen) : Screen := { s with vehGroup := key }

/-- A press on the `i`-th group button, followed by the render. -/
def pressGroup (i : Fin VEH_GROUPS.length) (s : Screen) : Screen :=
  commitRender s (setVehGroup (VEH_GROUPS.get i).key s)

/-- A press on an endpoint field: `setMapModal({ open: true, target })`. -/
def openMap (t : Target) (s : Screen) : Screen :=
  commitRender s { s with mapModal := { open_ := true, target := t } }

/-- The map picker's `onClose`: `setMapModal({ open: false, target: "from" })`. -/
def onCloseMap (s : Screen) : Screen :=
  { s with mapModal := { open_ := false, target := Target.from_ } }

/-- The map picker's `onPick({ coords, address })`. -/
def onPick (coords : Option Coords) (address : String) (s : Screen) : Screen :=
  let s1 : Screen :=
    if s.mapModal.target = Target.from_ then
      { s with from_ := jsOrStr address "", fromCoords := coords }
    else
      { s with to_ := jsOrStr address "", toCoords := coords }
  { s1 with mapModal := { open_ := false, target := Target.from_ } }

/-- The map picker's `confirm()` with a selected point, as the screen sees it:
`onPick` then `onClose`, followed by the render. -/
def confirmPick (coords : Coords) (address : String) (s : Screen) : Screen :=
  commitRender s (onCloseMap (onPick (some coords) address s))

/-- The map picker closed without a pick, followed by the render. -/
def cancelPick (s : Screen) : Screen := commitRender s (onCloseMap s)

/-- An edit of the comment field: `setNotes(text)`, followed by the render. -/
def editNotes (text : String) (s : Screen) : Screen :=
  commitRender s { s with notes := text }

/-- A press on the date field: `setShowDate(true)`. -/
def openDate (s : Screen) : Screen := commitRender s { s with showDate := true }

/-- A press on the time field: `setShowTime(true)`. -/
def openTime (s : Screen) : Screen := commitRender s { s with showTime := true }

/-- The date picker's `onChange(e, d)`; `none` stands for a dismissed picker.
`setFullYear date y m d` is the value a copy of `date` has after the call
`setFullYear(y, m, d)`. The method is taken as given: it works on the time value,
and the local time of day of `date` need not exist on the new day. -/
def onChangeDate (setFullYear : JsDate → Int → Int → Int → JsDate) (d : Option JsDate)
    (s : Screen) : Screen :=
  let s1 : Screen := { s with showDate := false }
  match d with
  | some d => { s1 with date := setFullYear s.date d.year d.month d.day }
  | none => s1

/-- The time picker's `onChange(e, t)`; `none` stands for a dismissed picker.
`setHours date h m sec ms` is the value a copy of `date` has after the call
`setHours(h, m, sec, ms)`; the method is taken as given, for the same reason. -/
def onChangeTime (setHours : JsDate → Int → Int → Int → Int → JsDate) (t : Option JsDate)
    (s : Screen) : Screen :=
  let s1 : Screen := { s with showTime := false }
  match t with
  | some t => { s1 with date := setHours s.date t.hours t.minutes 0 0 }
  | none => s1

/-! ## The form as a transition system -/

/-- The operations of the screen; each carries what the environment supplies
(clock readings, the random product, what a picker delivers, the `Date` method a
handler calls). -/
inductive Op where
  | pressGroup (i : Fin VEH_GROUPS.length)
  | openEmp
  | updateEmployees (list : List Employee)
  | closeEmp
  | openMap (t : Target)
  | confirmPick (coords : Coords) (address : String)
  | cancelPick
  | editNotes (text : String)
  | openDate
  | openTime
  | changeDate (setFullYear : JsDate → Int → Int → Int → JsDate) (d : Option JsDate)
  | changeTime (setHours : JsDate → Int → Int → Int → Int → JsDate) (t : Option JsDate)
  | pressCreate (x : ℚ) (nowCreated nowReset : JsDate)
  | confirmCancel (nowReset : JsDate)

/-- One operation applied to the cells. An operation is applied whether or not
its control is on display, so the states reached include every state the screen
can show. -/
def step (toISOString : JsDate → String) (s : Screen) : Op → Screen
  | Op.pressGroup i => pressGroup i s
  | Op.openEmp => openEmp s
  | Op.updateEmployees list => updateEmployees list s
  | Op.closeEmp => commitRender s (onCloseEmp s)
  | Op.openMap t => openMap t s
  | Op.confirmPick coords address => confirmPick coords address s
  | Op.cancelPick => cancelPick s
  | Op.editNotes text => editNotes text s
  | Op.openDate => openDate s
  | Op.openTime => openTime s
  | Op.changeDate setFullYear d => commitRender s (onChangeDate setFullYear d s)
  | Op.changeTime setHours t => commitRender s (onChangeTime setHours t s)
  | Op.pressCreate x nowCreated nowReset => (pressCreate toISOString x nowCreated nowReset s).1
  | Op.confirmCancel nowReset => confirmCancel nowReset s

/-- A sequence of operations applied from left to right. -/
def run (toISOString : JsDate → String) (s : Screen) (ops : List Op) : Screen :=
  ops.foldl (step toISOString) s

/-- The order an operation creates, if it creates one. -/
def createdOrder (toISOString : JsDate → String) (s : Screen) : Op → Option Order
  | Op.pressCreate x nowCreated _ =>
    if canCreate s then some (buildOrder toISOString x nowCreated s) else none
  | _ => none

/-! ## Sample inputs -/

/-- The roster `MOCK_EMPLOYEES` of `EmployeePickerModal.js`. -/
def MOCK_EMPLOYEES : List Employee :=
  [ { id := "e1", name := "Иванов Иван", dept := some "Экипаж" },
    { id := "e2", name := "Петров Пётр", dept := some "Техслужба" },
    { id := "e3", name := "Сидорова Анна", dept := some "Кабинный экипаж" },
    { id := "e4", name := "Алиев Камиль", dept := some "Офис" } ]

/-- A clock reading used in examples: 15 January 2025, 10:30 local time. -/
def sampleNow : JsDate := ⟨2025, 0, 15, 10, 30, 0, 0⟩

/-- A stand-in for `toISOString` used in examples. -/
def sampleISO : JsDate → String := fun _ => "2025-01-15T07:30:00.000Z"

/-- The scenario of the specification: both endpoints picked on the map
(`A` at 59.93, 30.33 and `B` at 59.95, 30.40) and the first three employees of
the roster committed, with no press on a group button. -/
def scenarioOps : List Op :=
  [ Op.openMap Target.from_,
    Op.confirmPick ⟨59.93, 30.33⟩ "A",
    Op.openMap Target.to_,
    Op.confirmPick ⟨59.95, 30.40⟩ "B",
    Op.openEmp,
    Op.updateEmployees (MOCK_EMPLOYEES.take 3) ]

/-- The draft the scenario reaches from the mounted screen. -/
def scenarioDraft : Screen := run sampleISO (mountScreen sampleNow) scenarioOps

/-- What holds of the vehicle group in every state the form reaches: the cell
`vehGroup` is a key of `VEH_GROUPS`, and so is the group of the active order. -/
def GroupsValid (s : Screen) : Prop :=
  s.vehGroup ∈ vehGroupKeys ∧
  ∀ o : Order, s.activeOrder = some o → o.requirements.vehicleGroup ∈ vehGroupKeys

/-- Whether an operation is a press on a group button. -/
def Op.isPressGroup : Op → Bool
  | Op.pressGroup _ => true
  | _ => false

/-- The vehicle group is the suggested one for the current number of
employees. -/
def AutoSuggested (s : Screen) : Prop := s.vehGroup = autoGroup s.employees.length

/-! ## Schedule, cancel and endpoints: notions of the specification -/

/-- Whether the calendar day of `d` is earlier than the calendar day of
`today`. -/
def isEarlierDay (d today : JsDate) : Bool :=
  decide (d.year < today.year) ||
  (decide (d.year = today.year) &&
    (decide (d.month < today.month) ||
      (decide (d.month = today.month) && decide (d.day < today.day))))

/-- A change in the date picker, followed by the render. -/
def changeDate (setFullYear : JsDate → Int → Int → Int → JsDate) (d : Option JsDate)
    (s : Screen) : Screen :=
  commitRender s (onChangeDate setFullYear d s)

/-- A stand-in for `setFullYear` used in examples: the year, month and day are
replaced and the time of day is kept, which is the method's result whenever that
local time exists on the new day. -/
def sampleSetFullYear (date : JsDate) (y m d : Int) : JsDate :=
  { date with year := y, month := m, day := d }

/-- A change in the time picker, followed by the render. -/
def changeTime (setHours : JsDate → Int → Int → Int → Int → JsDate) (t : Option JsDate)
    (s : Screen) : Screen :=
  commitRender s (onChangeTime setHours t s)

/-- The statuses of the specification after which an order no longer changes. -/
def isTerminalStatus (status : String) : Bool :=
  status == "finished" || status == "cancelled"

/-- The cancel transition in the specification's words: the same order with
status `"cancelled"`. -/
def cancelledSpec (o : Order) : Order := { o with status := "cancelled" }

/-- The label cell of an endpoint. -/
def endpointLabel (t : Target) (s : Screen) : String :=
  match t with
  | Target.from_ => s.from_
  | Target.to_ => s.to_

/-- The coordinate cell of an endpoint. -/
def endpointCoords (t : Target) (s : Screen) : Option Coords :=
  match t with
  | Target.from_ => s.fromCoords
  | Target.to_ => s.toCoords

/-- The other endpoint. -/
def Target.other : Target → Target
  | Target.from_ => Target.to_
  | Target.to_ => Target.from_

/-! ## The map picker (`MapPickerModal.js`) -/

/-- A map region `{ latitude, longitude, latitudeDelta, longitudeDelta }`. -/
structure Region where
  latitude : ℚ
  longitude : ℚ
  latitudeDelta : ℚ
  longitudeDelta : ℚ
deriving DecidableEq, Repr

/-- One entry of the answer of `Location.reverseGeocodeAsync`, with the fields
`reverse` reads; `none` stands for a missing field. -/
structure GeoAddress where
  country : Option String
  region : Option String
  city : Option String
  street : Option String
  name : Option String
  streetNumber : Option String
deriving DecidableEq, Repr

/-- One entry of the answer of `Location.geocodeAsync`. -/
structure GeoPoint where
  latitude : ℚ
  longitude : ℚ
deriving DecidableEq, Repr

/-- How an awaited provider call ends: with a value, or by raising an error. -/
inductive Outcome (α : Type) where
  | resolved (value : α)
  | rejected
deriving DecidableEq, Repr

/-- A provider call a handler starts and does not wait for synchronously. -/
inductive Request where
  | reverseGeocode (c : Coords)
  | geocode (q : String)
  | permissions
  | currentPosition
deriving DecidableEq, Repr

/-- The `useState` cells of `MapPickerModal` that hold the session, and the ref
`centeredOnceRef`. -/
structure MapPicker where
  coord : Option Coords
  address : String
  loadingAddr : Bool
  search : String
  lastRegion : Option Region
  centeredOnce : Bool
deriving DecidableEq, Repr

/-- The initial values of the cells. -/
def initialMapPicker : MapPicker :=
  { coord := none
    address := ""
    loadingAddr := false
    search := ""
    lastRegion := none
    centeredOnce := false }

/-- The argument `{ coords, address }` handed to `onPick`. -/
structure Pick where
  coords : Coords
  address : String
deriving DecidableEq, Repr

/-- What `confirm` or `handleClose` leaves: the cells, what was handed to
`onPick` (if anything) and whether `onClose` was called. -/
structure CloseResult where
  cells : MapPicker
  picked : Option Pick
  closed : Bool
deriving DecidableEq, Repr

/-- The expression `a || b` on optional strings: `a` when it is a non-empty
string, else `b`. -/
def jsOrOptStr (a b : Option String) : Option String :=
  match a with
  | some x => if x = "" then b else some x
  | none => b

/-- The filter `.filter(Boolean)` on optional strings: the non-empty strings. -/
def filterBoolean (parts : List (Option String)) : List String :=
  parts.filterMap (fun o =>
    match o with
    | some x => if x = "" then none else some x
    | none => none)

/-- The address line `reverse` builds from the first entry of the answer. -/
def addressLine (a : GeoAddress) : String :=
  ", ".intercalate
    (filterBoolean [a.country, a.region, a.city, a.street, jsOrOptStr a.name a.streetNumber])

/-- The function `reverse(c)` up to its `await`: `setLoadingAddr(true)` and the
call of `reverseGeocodeAsync`. -/
def reverseStart (c : Coords) (m : MapPicker) : MapPicker × List Request :=
  ({ m with loadingAddr := true }, [Request.reverseGeocode c])

/-- The function `reverse` from its `await` on, run on the cells `m` of that
moment. An answer sets the address to the line of its first entry, or to the
not-found text when it has none; an error skips `setAddress`. The `finally`
block runs in both cases. -/
def reverseFinish (r : Outcome (List GeoAddress)) (m : MapPicker) : MapPicker :=
  match r with
  | Outcome.resolved r =>
    let line :=
      match r.head? with
      | some a => addressLine a
      | none => "Адрес не найден"
    { m with address := line, loadingAddr := false }
  | Outcome.rejected => { m with loadingAddr := false }

/-- The handler `onMapPress` at the coordinate `c`: `setCoord(c); reverse(c)`. -/
def onMapPress (c : Coords) (m : MapPicker) : MapPicker × List Request :=
  reverseStart c { m with coord := some c }

/-- The marker's `onDragEnd` at the coordinate `c`: `setCoord(c); reverse(c)`. -/
def onDragEnd (c : Coords) (m : MapPicker) : MapPicker × List Request :=
  reverseStart c { m with coord := some c }

/-- The function `runSearch` from its `await` on, run on the cells `m` of that
moment, given how `geocodeAsync` ended. -/
def runSearchFinish (res : Outcome (List GeoPoint)) (m : MapPicker) :
    MapPicker × List Request :=
  match res with
  | Outcome.rejected => (m, [])
  | Outcome.resolved res =>
    match res.head? with
    | none => (m, [])
    | some g =>
      let c : Coords := { lat := g.latitude, lng := g.longitude }
      let r := reverseStart c { m with coord := some c }
      ({ r.1 with
          lastRegion := some
            { latitude := c.lat, longitude := c.lng
              latitudeDelta := 0.08, longitudeDelta := 0.08 } },
       r.2)

/-- The function `runSearch` up to its `await`: nothing when the search text
trims to empty, else the call of `geocodeAsync(q)`. -/
def runSearchStart (m : MapPicker) : MapPicker × List Request :=
  let q := jsTrim m.search
  if q = "" then (m, []) else (m, [Request.geocode q])

/-- The function `runSearch` run through, with `geocodeAsync` the provider and no
other event between the call and its answer. -/
def runSearch (geocodeAsync : String → Outcome (List GeoPoint)) (m : MapPicker) :
    MapPicker × List Request :=
  let q := jsTrim m.search
  if q = "" then (m, []) else runSearchFinish (geocodeAsync q) m

/-- The function `confirm`. -/
def confirm (m : MapPicker) : CloseResult :=
  match m.coord with
  | none => { cells := m, picked := none, closed := false }
  | some c =>
    { cells := { m with search := "" }
      picked := some { coords := c, address := m.address }
      closed := true }

/-- A press on the confirm button, which is disabled when
`!coord || loadingAddr`. -/
def pressConfirm (m : MapPicker) : CloseResult :=
  if m.coord.isNone || m.loadingAddr then { cells := m, picked := none, closed := false }
  else confirm m

/-- The function `handleClose`. -/
def handleClose (m : MapPicker) : CloseResult :=
  { cells := { m with coord := none, address := "", search := "" }
    picked := none
    closed := true }

/-- A point used in examples. -/
def samplePointA : Coords := { lat := 59.93, lng := 30.33 }

/-- Another point used in examples. -/
def samplePointB : Coords := { lat := 59.95, lng := 30.40 }

/-- A reverse-geocoding entry used in examples. -/
def sampleGeoAddress : GeoAddress :=
  { country := some "Россия"
    region := none
    city := some "Санкт-Петербург"
    street := some "Невский проспект"
    name := some "1"
    streetNumber := none }

/-- The session in which the point `A` was tapped and resolved, then the point
`B` was tapped and its resolution is still awaited. -/
def sampleResolving : MapPicker :=
  (onMapPress samplePointB
    (reverseFinish (Outcome.resolved [sampleGeoAddress])
      (onMapPress samplePointA initialMapPicker).1)).1

/-! ## The employee picker (`EmployeePickerModal.js`) -/

/-- The method `hay.includes(needle)`: `needle` occurs in `hay` as a contiguous
run of characters. -/
def jsIncludes (hay needle : String) : Bool :=
  hay.data.tails.any (fun t => needle.data.isPrefixOf t)

/-- The filter of the memo `data` over a roster: the whole roster when the
trimmed, lower-cased text `s` is empty, else the entries whose lower-cased name or
lower-cased department includes `s`. `toLowerCase` is the method of that name. -/
def rosterFilter (toLowerCase : String → String) (roster : List Employee) (q : String) :
    List Employee :=
  let s := toLowerCase (jsTrim q)
  if s = "" then roster
  else
    roster.filter (fun e =>
      jsIncludes (toLowerCase e.name) s ||
      (match e.dept with
       | some d => jsIncludes (toLowerCase d) s
       | none => false))

/-- The memo `data`: the filter over `MOCK_EMPLOYEES`. -/
def data (toLowerCase : String → String) (q : String) : List Employee :=
  rosterFilter toLowerCase MOCK_EMPLOYEES q

/-- A `Map` from employee id to employee, as its entries in insertion order. -/
abbrev IdMap := List (String × Employee)

/-- The method `has(k)`. -/
def mapHas (m : IdMap) (k : String) : Bool := m.any (fun p => p.1 == k)

/-- The method `set(k, v)`: the value is replaced in place when the key is
present, else the entry is added at the end. -/
def mapSet (m : IdMap) (k : String) (v : Employee) : IdMap :=
  if mapHas m k then m.map (fun p => if p.1 == k then (k, v) else p) else m ++ [(k, v)]

/-- The method `delete(k)`. -/
def mapDelete (m : IdMap) (k : String) : IdMap := m.filter (fun p => !(p.1 == k))

/-- The constructor `new Map(pairs)`: the pairs are set one after the other. -/
def mapOfPairs (pairs : List (String × Employee)) : IdMap :=
  pairs.foldl (fun m p => mapSet m p.1 p.2) []

/-- The values `Array.from(m.values())`, in insertion order. -/
def mapValues (m : IdMap) : List Employee := m.map Prod.snd

/-- The keys of the map, in insertion order. -/
def mapKeys (m : IdMap) : List String := m.map Prod.fst

/-- The `useState` cells of `EmployeePickerModal`. -/
structure PickerState where
  q : String
  selected : IdMap
deriving DecidableEq, Repr

/-- The initial values of the cells. -/
def initialPicker : PickerState := { q := "", selected := [] }

/-- The working copy `new Map(initial.map(e => [e.id, e]))`. -/
def seedSelection (initial : List Employee) : IdMap :=
  mapOfPairs (initial.map (fun e => (e.id, e)))

/-- The body of the seed effect: when visible, the selection becomes the working
copy of `initial` and the filter text is cleared. -/
def seedEffect (visible : Bool) (initial : List Employee) (p : PickerState) : PickerState :=
  if visible then { selected := seedSelection initial, q := "" } else p

/-- The render of the picker after its props changed: the seed effect, whose
dependency list is `[visible]`, runs when `visible` differs from the previous
render's. -/
def pickerRender (prevVisible visible : Bool) (initial : List Employee) (p : PickerState) :
    PickerState :=
  if visible = prevVisible then p else seedEffect visible initial p

/-- The function `toggle(emp)`. -/
def toggle (emp : Employee) (p : PickerState) : PickerState :=
  { p with
    selected :=
      if mapHas p.selected emp.id then mapDelete p.selected emp.id
      else mapSet p.selected emp.id emp }

/-- The list `done()` hands to `onDone`. -/
def doneList (p : PickerState) : List Employee := mapValues p.selected

/-- The selection in roster order, as the specification words the result of a
commit: the roster entries whose id is selected. -/
def rosterOrderSpec (p : PickerState) : List Employee :=
  MOCK_EMPLOYEES.filter (fun e => mapHas p.selected e.id)

/-- The screen together with its employee picker. -/
structure WithPicker where
  screen : Screen
  picker : PickerState
deriving DecidableEq, Repr

/-- The picker re-rendered after the screen went from `prev` to `next`; its
props are `visible = empModal` and `initial = employees`. -/
def syncPicker (prev : Screen) (next : Screen) (p : PickerState) : WithPicker :=
  { screen := next, picker := pickerRender prev.empModal next.empModal next.employees p }

/-- A press on the select-employees button, and the picker's render. -/
def openPicker (w : WithPicker) : WithPicker :=
  syncPicker w.screen (openEmp w.screen) w.picker

/-- A press on the backdrop of the picker: `onClose`, and the renders. -/
def closePicker (w : WithPicker) : WithPicker :=
  syncPicker w.screen (commitRender w.screen (onCloseEmp w.screen)) w.picker

/-- A press on a roster row of the picker. -/
def pressRow (emp : Employee) (w : WithPicker) : WithPicker :=
  { w with picker := toggle emp w.picker }

/-- A press on the done button: `done()`, and the renders. -/
def pressDone (w : WithPicker) : WithPicker :=
  syncPicker w.screen (updateEmployees (doneList w.picker) w.screen) w.picker

/-- A stand-in for `toLowerCase` used in examples: it lower-cases the Latin
letters `A` to `Z` and the Cyrillic letters `А` to `Я`. -/
def sampleLower (s : String) : String :=
  String.mk (s.data.map (fun c =>
    if (65 ≤ c.toNat ∧ c.toNat ≤ 90) ∨ (0x410 ≤ c.toNat ∧ c.toNat ≤ 0x42F) then
      Char.ofNat (c.toNat + 32)
    else c))

/-- In the specification's words: `field` contains `filter` as a
case-insensitive substring, that is, the lower-cased filter is a contiguous part
of the lower-cased field. -/
def containsIgnoringCase (toLowerCase : String → String) (field filter : String) : Prop :=
  (toLowerCase filter).data <:+: (toLowerCase field).data

/-- In the specification's words: the name or the department of `e` contains the
trimmed filter as a case-insensitive substring. -/
def matchesFilterSpec (toLowerCase : String → String) (e : Employee) (q : String) : Prop :=
  containsIgnoringCase toLowerCase e.name (jsTrim q) ∨
  ∃ d, e.dept = some d ∧ containsIgnoringCase toLowerCase d (jsTrim q)

instance containsIgnoringCaseDecidable (toLowerCase : String → String) (field filter : String) :
    Decidable (containsIgnoringCase toLowerCase field filter) :=
  List.decidableInfix _ _

instance matchesFilterSpecDecidable (toLowerCase : String → String) (e : Employee)
    (q : String) : Decidable (matchesFilterSpec toLowerCase e q) :=
  match h : e.dept with
  | none =>
    decidable_of_iff (containsIgnoringCase toLowerCase e.name (jsTrim q))
      (by unfold matchesFilterSpec; simp [h])
  | some d =>
    decidable_of_iff
      (containsIgnoringCase toLowerCase e.name (jsTrim q) ∨
        containsIgnoringCase toLowerCase d (jsTrim q))
      (by unfold matchesFilterSpec; simp [h])

/-- A picker session on the screen: the picker is opened, the rows `toggles` are
pressed one after the other, and the backdrop is pressed (no `done()`). -/
def sessionThenClose (w : WithPicker) (toggles : List Employee) : WithPicker :=
  closePicker (toggles.foldl (fun w e => pressRow e w) (openPicker w))

/-! ## The open effect of the map picker -/

/-- The answer of `Location.requestForegroundPermissionsAsync`, by its
`status`. -/
inductive PermissionStatus where
  | granted
  | denied
  | undetermined
deriving DecidableEq, Repr

/-- The helper `toRegion(lat, lng, zoom)` of the open effect. -/
def toRegion (lat lng zoom : ℚ) : Region :=
  { latitude := lat, longitude := lng, latitudeDelta := zoom, longitudeDelta := zoom }

/-- What one run of the open effect holds in its closure: the flag `cancelled`
(set by the cleanup, which runs when `visible` or `initial` changes), and the
value of `lastRegion` in the render the effect belongs to. -/
structure OpenRun where
  cancelled : Bool
  lastRegion : Option Region
deriving DecidableEq, Repr

/-- The cleanup of the open effect: `cancelled = true`. -/
def cleanupRun (run : OpenRun) : OpenRun := { run with cancelled := true }

/-- What a part of the open effect leaves: the cells, the provider calls it
started, and the region handed to `animateToRegion` (if any). -/
structure EffectStep where
  cells : MapPicker
  requests : List Request
  animateTo : Option Region
deriving DecidableEq, Repr

/-- The first effect, on `[visible]`: `if (visible) centeredOnceRef.current =
false`. -/
def resetCenteredEffect (visible : Bool) (m : MapPicker) : MapPicker :=
  if visible then { m with centeredOnce := false } else m

/-- The open effect up to its first `await`, with the props `visible` and
`initial`. -/
def openEffectStart (visible : Bool) (initial : Option Coords) (m : MapPicker) : EffectStep :=
  if !visible then { cells := m, requests := [], animateTo := none }
  else if m.centeredOnce then { cells := m, requests := [], animateTo := none }
  else
    match initial with
    | some c =>
      let r := reverseStart c { m with search := "", coord := some c, address := "" }
      { cells := r.1, requests := r.2, animateTo := none }
    | none =>
      { cells := { m with search := "" }, requests := [Request.permissions], animateTo := none }

/-- The two effects as they run when the picker is shown: the first resets the
ref, then the open effect starts. -/
def openSession (initial : Option Coords) (m : MapPicker) : EffectStep :=
  openEffectStart true initial (resetCenteredEffect true m)

/-- The closure of the open effect started on the cells `m`. -/
def newRun (m : MapPicker) : OpenRun := { cancelled := false, lastRegion := m.lastRegion }

/-- The call `mapRef.current?.animateToRegion(reg, 0)`: the map is moved to `reg`
when it is mounted, that is, while the Modal is shown; the call does nothing
otherwise. -/
def animateIfMounted (mapMounted : Bool) (reg : Region) : Option Region :=
  if mapMounted then some reg else none

/-- The open effect with an initial place, from `await reverse(initial)` on: the
rest of `reverse` runs first; an error leaves the function there; otherwise,
unless `cancelled`, the map is centred on the place at span 0.08. `mapMounted`
tells whether the map is mounted at that moment. -/
def openAfterReverse (run : OpenRun) (mapMounted : Bool) (initial : Coords)
    (r : Outcome (List GeoAddress)) (m : MapPicker) : EffectStep :=
  let m1 := reverseFinish r m
  match r with
  | Outcome.rejected => { cells := m1, requests := [], animateTo := none }
  | Outcome.resolved _ =>
    if run.cancelled then { cells := m1, requests := [], animateTo := none }
    else
      let reg := toRegion initial.lat initial.lng 0.08
      { cells := { m1 with lastRegion := some reg, centeredOnce := true }
        requests := []
        animateTo := animateIfMounted mapMounted reg }

/-- The third branch of the open effect: the last region of the closure, or the
world view. -/
def openFallback (run : OpenRun) (mapMounted : Bool) (m : MapPicker) : EffectStep :=
  let fallback :=
    match run.lastRegion with
    | some reg => reg
    | none => toRegion 30 0 40
  { cells := { m with coord := none, address := "", centeredOnce := true }
    requests := []
    animateTo := animateIfMounted mapMounted fallback }

/-- The open effect without an initial place, from the `await` of the permission
request on: the position is asked for when the status is `granted`; any other
status, or an error, leads to the third branch. -/
def openAfterPermission (run : OpenRun) (mapMounted : Bool) (status : Outcome PermissionStatus)
    (m : MapPicker) : EffectStep :=
  match status with
  | Outcome.resolved PermissionStatus.granted =>
    { cells := m, requests := [Request.currentPosition], animateTo := none }
  | _ => openFallback run mapMounted m

/-- The open effect without an initial place, from the `await` of the position
on: unless `cancelled`, the map is centred on the position at span 0.2 and the
selected point is cleared; an error leads to the third branch. -/
def openAfterPosition (run : OpenRun) (mapMounted : Bool) (pos : Outcome GeoPoint)
    (m : MapPicker) : EffectStep :=
  match pos with
  | Outcome.resolved p =>
    if run.cancelled then { cells := m, requests := [], animateTo := none }
    else
      let reg := toRegion p.latitude p.longitude 0.2
      { cells := { m with coord := none, address := "", lastRegion := some reg,
                          centeredOnce := true }
        requests := []
        animateTo := animateIfMounted mapMounted reg }
  | Outcome.rejected => openFallback run mapMounted m

/-- The open effect without an initial place followed through on a session that
stays open (the map is mounted), with the two providers answering `status` and
`pos` and no other event in between. A continuation runs only for a request the
part before it has started: when the effect returns at one of its guards, nothing
follows. -/
def openWithoutInitial (status : Outcome PermissionStatus) (pos : Outcome GeoPoint)
    (m : MapPicker) : EffectStep :=
  let start := openSession none m
  match start.requests with
  | [Request.permissions] =>
    let run := newRun (resetCenteredEffect true m)
    let afterPermission := openAfterPermission run true status start.cells
    match afterPermission.requests with
    | [Request.currentPosition] => openAfterPosition run true pos afterPermission.cells
    | _ => afterPermission
  | _ => start

/-- The picker as its parent shows it: the prop `visible` and the cells. -/
structure MapSession where
  visible : Bool
  cells : MapPicker
deriving DecidableEq, Repr

/-- A tap on the map at `c`; the map takes taps only while the picker is
shown. -/
def tapAt (c : Coords) (sess : MapSession) : MapSession :=
  if sess.visible then { sess with cells := (onMapPress c sess.cells).1 } else sess

/-- The answer to a reverse resolution started by a tap arrives: the rest of
`reverse` runs on the cells of that moment. -/
def reverseAnswer (r : Outcome (List GeoAddress)) (sess : MapSession) : MapSession :=
  { sess with cells := reverseFinish r sess.cells }

/-- The session in which the point `A` was tapped and resolved. -/
def sampleResolved : MapPicker :=
  reverseFinish (Outcome.resolved [sampleGeoAddress])
    (onMapPress samplePointA initialMapPicker).1

/-- A reverse-geocoding entry for the point `B`, used in examples. -/
def sampleGeoAddressB : GeoAddress :=
  { country := some "Россия"
    region := none
    city := some "Санкт-Петербург"
    street := some "Литейный проспект"
    name := some "20"
    streetNumber := none }

/-- The address line `reverse` sets for an answer: the line of its first entry,
or the not-found text when it has none. -/
def answerLine (r : List GeoAddress) : String :=
  match r.head? with
  | some a => addressLine a
  | none => "Адрес не найден"

/-- The session in which the point `A` was tapped, then the point `B` was tapped
before the answer for `A` came, and the answer for `B` has come: the request for
`A` is superseded and still awaited. -/
def sampleSuperseded : MapPicker :=
  reverseFinish (Outcome.resolved [sampleGeoAddressB])
    (onMapPress samplePointB (onMapPress samplePointA initialMapPicker).1).1

/-- A session opened without an initial place and closed by `handleClose` before
the permission request was answered. -/
def sampleClosedEarly : MapPicker :=
  (handleClose (openSession none initialMapPicker).cells).cells

/-- The closure of that session's open effect, after its cleanup. -/
def sampleClosedRun : OpenRun := cleanupRun (newRun (resetCenteredEffect true initialMapPicker))

/-! ## The route preview (`RoutePreviewScreen.js`) -/

/-- A map coordinate `{ latitude, longitude }`. -/
structure LatLng where
  latitude : ℚ
  longitude : ℚ
deriving DecidableEq, Repr

/-- A route of the routing answer: the `[lon, lat]` pairs of
`geometry.coordinates`, the distance and the duration. -/
structure OsrmRoute where
  coordinates : List (ℚ × ℚ)
  distance : ℚ
  duration : ℚ
deriving DecidableEq, Repr

/-- The body of the routing answer; `none` stands for a missing `routes`
field. -/
structure OsrmData where
  routes : Option (List OsrmRoute)
deriving DecidableEq, Repr

/-- The response `fetch` resolves to: the flag `ok`, the status code, and how
`res.json()` ends. -/
structure HttpResponse where
  ok : Bool
  status : Nat
  json : Outcome OsrmData
deriving DecidableEq, Repr

/-- What the request URL of `fetchRouteOSRM` carries: the pair
`longitude,latitude` of the origin and that of the destination. -/
structure RouteQuery where
  o : ℚ × ℚ
  d : ℚ × ℚ
deriving DecidableEq, Repr

/-- The value `fetchRouteOSRM` returns. -/
structure RouteResult where
  coords : List LatLng
  distanceKm : ℚ
  durationMin : ℚ
deriving DecidableEq, Repr

/-- The function `fetchRouteOSRM(origin, destination)`, with `fetch` the network
call; `Outcome.rejected` stands for a raised error. -/
def fetchRouteOSRM (fetch : RouteQuery → Outcome HttpResponse) (origin destination : LatLng) :
    Outcome RouteResult :=
  match fetch { o := (origin.longitude, origin.latitude)
                d := (destination.longitude, destination.latitude) } with
  | Outcome.rejected => Outcome.rejected
  | Outcome.resolved res =>
    if !res.ok then Outcome.rejected
    else
      match res.json with
      | Outcome.rejected => Outcome.rejected
      | Outcome.resolved data =>
        match data.routes with
        | none => Outcome.rejected
        | some [] => Outcome.rejected
        | some (route :: _) =>
          Outcome.resolved
            { coords := route.coordinates.map (fun p => { latitude := p.2, longitude := p.1 })
              distanceKm := route.distance / 1000
              durationMin := route.duration / 60 }

/-- The first route of a response, if its body can be read and lists one. -/
def firstRoute (res : HttpResponse) : Option OsrmRoute :=
  match res.json with
  | Outcome.resolved data =>
    match data.routes with
    | some (route :: _) => some route
    | _ => none
  | Outcome.rejected => none

/-- The cell `summary`: `{ distanceKm, durationMin }`. -/
structure RouteSummary where
  distanceKm : ℚ
  durationMin : ℚ
deriving DecidableEq, Repr

/-- The `useState` cells of `RoutePreviewScreen`. -/
structure RoutePreview where
  loading : Bool
  summary : Option RouteSummary
  line : List LatLng
  expanded : Bool
deriving DecidableEq, Repr

/-- The initial values of the cells. -/
def initialRoutePreview : RoutePreview :=
  { loading := true, summary := none, line := [], expanded := false }

/-- The values `origin` and `destination` of the screen:
`coords && { latitude: coords.lat, longitude: coords.lng }`. -/
def toLatLng (coords : Option Coords) : Option LatLng :=
  coords.map (fun c => { latitude := c.lat, longitude := c.lng })

/-- What `buildRoute` leaves: the cells, the alert it shows (if any) and the
points handed to `fitToCoordinates` (if any). -/
structure RouteStep where
  cells : RoutePreview
  alert : Option Alert
  fitTo : Option (List LatLng)
deriving DecidableEq, Repr

/-- The function `buildRoute` from the `await` of `fetchRouteOSRM` on, on the
cells `s` of that moment; `cancelled` is the flag the cleanup of the effect
sets when the screen is left or its coordinates change. -/
def buildRouteFinish (cancelled : Bool) (origin destination : LatLng)
    (r : Outcome RouteResult) (s : RoutePreview) : RouteStep :=
  if cancelled then { cells := s, alert := none, fitTo := none }
  else
    match r with
    | Outcome.resolved r =>
      { cells :=
          { s with
            line := r.coords
            summary := some { distanceKm := r.distanceKm, durationMin := r.durationMin }
            loading := false }
        alert := none
        fitTo := some r.coords }
    | Outcome.rejected =>
      { cells := { s with line := [origin, destination], summary := none, loading := false }
        alert := some
          { title := "Маршрут"
            message := "Не удалось получить маршрут по дорогам. Показана прямая линия." }
        fitTo := some [origin, destination] }

/-- The function `buildRoute` run through, with `fetch` the network call and
`cancelled` telling whether the cleanup ran before the answer came. -/
def buildRoute (fetch : RouteQuery → Outcome HttpResponse) (cancelled : Bool)
    (origin destination : Option LatLng) (s : RoutePreview) : RouteStep :=
  match origin, destination with
  | some o, some d =>
    buildRouteFinish cancelled o d (fetchRouteOSRM fetch o d) { s with loading := true }
  | _, _ => { cells := s, alert := none, fitTo := none }

/-- A routing response used in examples: one route of three points. -/
def sampleResponse : HttpResponse :=
  { ok := true
    status := 200
    json := Outcome.resolved
      { routes := some
          [ { coordinates := [(30.33, 59.93), (30.36, 59.94), (30.40, 59.95)]
              distance := 5400
              duration := 780 } ] } }

/-- A failing routing response used in examples: status 500. -/
def sampleFailure : HttpResponse :=
  { ok := false, status := 500, json := Outcome.rejected }

/-! ## The route-preview button and the orders history -/

/-- What a press on the route-preview button of the active order does: it shows
the alert, or navigates to `RoutePreview` with these parameters. -/
inductive RoutePress where
  | alert (a : Alert)
  | navigate (fromLabel toLabel : String) (fromCoords toCoords : Coords)
deriving DecidableEq, Repr

/-- The `onPress` of the route-preview button for the active order `o`. -/
def pressRoutePreview (o : Order) : RoutePress :=
  match o.fromCoords, o.toCoords with
  | some f, some t => RoutePress.navigate o.from_ o.to_ f t
  | _, _ =>
    RoutePress.alert
      { title := "Маршрут"
        message :=
          "Нужно выбрать координаты ‘Откуда’ и ‘Куда’. Откройте карту и задайте точки." }

/-- What holds of the endpoints in every state the form reaches: an endpoint
with a non-empty label has a coordinate, and the active order has both
coordinates. -/
def EndpointsResolved (s : Screen) : Prop :=
  (s.from_ ≠ "" → s.fromCoords ≠ none) ∧
  (s.to_ ≠ "" → s.toCoords ≠ none) ∧
  ∀ o : Order, s.activeOrder = some o → o.fromCoords ≠ none ∧ o.toCoords ≠ none

/-- The memo `filtered` of `OrdersHistoryScreen`, over the orders `data`, the
status tab and the search text; `toLowerCase` is the method of that name. -/
def filtered (toLowerCase : String → String) (data : List Order) (tab q : String) :
    List Order :=
  let ql := toLowerCase (jsTrim q)
  data.filter (fun o =>
    let okStatus := if tab = "all" then true else decide (o.status = tab)
    if !okStatus then false
    else if ql = "" then true
    else
      jsIncludes o.id ql ||
      jsIncludes (toLowerCase o.from_) ql ||
      jsIncludes (toLowerCase o.to_) ql ||
      o.employees.any (fun e => jsIncludes (toLowerCase e.name) ql))

/-- In the words of the claim on the history filter: the status is the tab (any
status for the tab `"all"`) and, when the trimmed lower-cased query is
non-empty, the id contains it, or the `from` or `to` label or the name of some
employee contains the trimmed query case-insensitively. -/
def matchesHistorySpec (toLowerCase : String → String) (tab q : String) (o : Order) : Prop :=
  (tab = "all" ∨ o.status = tab) ∧
  (toLowerCase (jsTrim q) = "" ∨
    (toLowerCase (jsTrim q)).data <:+: o.id.data ∨
    containsIgnoringCase toLowerCase o.from_ (jsTrim q) ∨
    containsIgnoringCase toLowerCase o.to_ (jsTrim q) ∨
    ∃ e ∈ o.employees, containsIgnoringCase toLowerCase e.name (jsTrim q))

instance matchesHistorySpecDecidable (toLowerCase : String → String) (tab q : String)
    (o : Order) : Decidable (matchesHistorySpec toLowerCase tab q o) := by
  unfold matchesHistorySpec
  infer_instance

/-- The list `MOCK` of `OrdersHistoryScreen.js`; a field an entry does not have
is `none`. -/
def MOCK : List Order :=
  [ { id := "52134"
      status := "finished"
      from_ := "Минеральные Воды (а/п), терминал B"
      to_ := "Черкесск, Ленина, 57В"
      date := "2025-03-05T14:40:00+03:00"
      fromCoords := some { lat := 44.2265, lng := 42.0461 }
      toCoords := some { lat := 44.2091, lng := 42.0487 }
      employees :=
        [ { id := "e1", name := "Иван Петров", dept := none },
          { id := "e2", name := "Светлана К.", dept := none } ]
      requirements := { pax := 2, vehicleGroup := "1-4", notes := "" }
      timeline :=
        { createdAt := some "2025-03-05T12:55:00+03:00"
          assignedAt := some "2025-03-05T13:05:00+03:00"
          arrivedAtPickup := some "2025-03-05T14:25:00+03:00"
          departedAt := some "2025-03-05T14:33:00+03:00"
          arrivedAtDropoff := some "2025-03-05T15:40:00+03:00"
          finishedAt := some "2025-03-05T15:45:00+03:00"
          travelTimeSec := some (67 * 60) }
      ratings := { driver := some 5, passenger := some 5 } },
    { id := "52135"
      status := "cancelled"
      from_ := "Черкесск, Заводская, 1"
      to_ := "Минеральные Воды, Промышленная, 3"
      date := "2025-03-06T09:30:00+03:00"
      fromCoords := some { lat := 44.2265, lng := 42.0461 }
      toCoords := some { lat := 44.2091, lng := 42.0487 }
      employees := [ { id := "e3", name := "Андрей Ш.", dept := none } ]
      requirements := { pax := 1, vehicleGroup := "1-4", notes := "перенос на завтра" }
      timeline :=
        { createdAt := some "2025-03-06T08:10:00+03:00"
          assignedAt := none
          arrivedAtPickup := none
          departedAt := none
          arrivedAtDropoff := none
          finishedAt := none
          travelTimeSec := none }
      ratings := { driver := none, passenger := none } },
    { id := "52136"
      status := "assigned"
      from_ := "Черкесск, Лермонтова, 10"
      to_ := "Карачаевск, Мира, 2"
      date := "2025-03-07T11:00:00+03:00"
      fromCoords := none
      toCoords := none
      employees :=
        [ { id := "e4", name := "Ольга Н.", dept := none },
          { id := "e5", name := "Федор П.", dept := none },
          { id := "e6", name := "Лев С.", dept := none } ]
      requirements := { pax := 3, vehicleGroup := "1-4", notes := "" }
      timeline :=
        { createdAt := some "2025-03-07T09:02:00+03:00"
          assignedAt := some "2025-03-07T09:18:00+03:00"
          arrivedAtPickup := none
          departedAt := none
          arrivedAtDropoff := none
          finishedAt := none
          travelTimeSec := none }
      ratings := { driver := none, passenger := none } },
    { id := "52137"
      status := "pending"
      from_ := "Невинномысск, Центральная, 5"
      to_ := "Минеральные Воды (а/п)"
      date := "2025-03-08T19:45:00+03:00"
      fromCoords := none
      toCoords := none
      employees := [ { id := "e7", name := "Кирилл Г.", dept := none } ]
      requirements := { pax := 1, vehicleGroup := "1-4", notes := "" }
      timeline :=
        { createdAt := some "2025-03-08T18:11:00+03:00"
          assignedAt := none
          arrivedAtPickup := none
          departedAt := none
          arrivedAtDropoff := none
          finishedAt := none
          travelTimeSec := none }
      ratings := { driver := none, passenger := none } } ]

/-! ## Auxiliary notions for the proofs -/

/-- Digit values of a natural number, most significant first. -/
def revDigits (n : Nat) : List Nat := if n = 0 then [0] else (Nat.digits 10 n).reverse

/-- The digit value of a decimal digit character. -/
def digitValue (c : Char) : Nat := c.toNat - 48

end AirlineHome

namespace AirlineHome

/-! ## Theorems -/

theorem jsOrNat_one (n : Nat) : jsOrNat n 1 = max 1 n := by
  unfold jsOrNat
  split_ifs with h
  · subst h; rfl
  · omega

theorem bucketIndex_chooseGroupByCount (n : Nat) :
    bucketIndex (chooseGroupByCount n) =
      if n ≤ 4 then 0 else if n ≤ 8 then 1 else if n ≤ 15 then 2 else 3 := by
  unfold chooseGroupByCount
  split_ifs <;> decide

/-- C1: for every passenger count `n` (in particular every `n ≥ 1`),
`chooseGroupByCount n` is the key of the first of the four buckets, ordered by
upper bound 4, 8, 15, 40, whose upper bound is at least `n`, and is `"30-40"`
when `n` exceeds all four bounds; 9 and 15 give `"10-15"`, 16 gives `"30-40"`. -/
theorem chooseGroupByCount_smallest_bucket :
    (∀ n : Nat, chooseGroupByCount n = suggestVehicleGroup n) ∧
    (∀ n : Nat, ∀ b ∈ specBuckets, chooseGroupByCount n = b.key →
        (n ≤ b.upper ∧ ∀ c ∈ specBuckets, n ≤ c.upper → b.upper ≤ c.upper) ∨
        (b.key = "30-40" ∧ ∀ c ∈ specBuckets, c.upper < n)) ∧
    (∀ n : Nat, ∃ b ∈ specBuckets, chooseGroupByCount n = b.key) ∧
    chooseGroupByCount 9 = "10-15" ∧
    chooseGroupByCount 15 = "10-15" ∧
    chooseGroupByCount 16 = "30-40" := by
  refine ⟨?_, ?_, ?_, by decide, by decide, by decide⟩
  · intro n
    unfold chooseGroupByCount suggestVehicleGroup specBuckets
    by_cases h4 : n ≤ 4
    · simp [List.find?, h4]
    · by_cases h8 : n ≤ 8
      · simp [List.find?, h4, h8]
      · by_cases h15 : n ≤ 15
        · simp [List.find?, h4, h8, h15]
        · by_cases h40 : n ≤ 40
          · simp [List.find?, h4, h8, h15, h40]
          · simp [List.find?, h4, h8, h15, h40]
  · intro n b hb hkey
    unfold chooseGroupByCount at hkey
    simp only [specBuckets, List.mem_cons, List.mem_singleton, List.not_mem_nil,
      or_false] at hb
    simp only [specBuckets, List.mem_cons, List.mem_singleton, List.not_mem_nil,
      or_false, forall_eq_or_imp, forall_eq]
    rcases hb with rfl | rfl | rfl | rfl <;> dsimp only at hkey ⊢ <;>
      split_ifs at hkey <;>
      first
        | exact absurd hkey (by decide)
        | (left; refine ⟨by omega, ?_, ?_, ?_, ?_⟩ <;> intro h <;> omega)
        | (right; refine ⟨rfl, ?_, ?_, ?_, ?_⟩ <;> omega)
        | (by_cases h40 : n ≤ 40
           · left; refine ⟨by omega, ?_, ?_, ?_, ?_⟩ <;> intro h <;> omega
           · right; refine ⟨rfl, ?_, ?_, ?_, ?_⟩ <;> omega)
  · intro n
    unfold chooseGroupByCount
    split_ifs
    · exact ⟨⟨"1-4", 4⟩, by simp [specBuckets], rfl⟩
    · exact ⟨⟨"6-8", 8⟩, by simp [specBuckets], rfl⟩
    · exact ⟨⟨"10-15", 15⟩, by simp [specBuckets], rfl⟩
    · exact ⟨⟨"30-40", 40⟩, by simp [specBuckets], rfl⟩

/-! ### Strings -/

theorem jsTrim_eq_empty_iff (s : String) :
    jsTrim s = "" ↔ ∀ c ∈ s.data, isJsWhiteSpace c = true := by
  unfold jsTrim
  constructor
  · intro h
    have h1 : ((s.data.dropWhile isJsWhiteSpace).reverse.dropWhile isJsWhiteSpace).reverse = [] := by
      have := congrArg String.data h
      simpa using this
    rw [List.reverse_eq_nil_iff, List.dropWhile_eq_nil_iff] at h1
    by_contra hne
    have hd : s.data.dropWhile isJsWhiteSpace ≠ [] := by
      intro h0
      rw [List.dropWhile_eq_nil_iff] at h0
      exact hne h0
    have hh := List.head_dropWhile_not isJsWhiteSpace s.data hd
    have hm := h1 _ (List.mem_reverse.mpr (List.head_mem hd))
    rw [hm] at hh
    exact absurd hh (by decide)
  · intro h
    have h0 : s.data.dropWhile isJsWhiteSpace = [] := List.dropWhile_eq_nil_iff.mpr h
    rw [h0]
    rfl

theorem jsTruthyStr_iff (s : String) : jsTruthyStr s = true ↔ s ≠ "" := by
  unfold jsTruthyStr
  simp

theorem canCreate_iff (s : Screen) :
    canCreate s = true ↔ jsTrim s.from_ ≠ "" ∧ jsTrim s.to_ ≠ "" ∧ s.employees ≠ [] := by
  unfold canCreate
  simp only [Bool.and_eq_true, jsTruthyStr_iff, decide_eq_true_eq, List.length_pos, and_assoc]

theorem jsTrim_empty : jsTrim "" = "" := by decide

/-- C2: the suggestion the form applies, `chooseGroupByCount(employees.length || 1)`,
is monotonic: for employee counts `m ≤ n` the position in `VEH_GROUPS` of the group
suggested for `m` is at most that of the group suggested for `n`; and the
suggestion for 0 employees is the one for 1 employee, `"1-4"`. -/
theorem autoGroup_monotone (m n : Nat) (h : m ≤ n) :
    bucketIndex (autoGroup m) ≤ bucketIndex (autoGroup n) ∧
    autoGroup 0 = autoGroup 1 ∧ autoGroup 1 = "1-4" := by
  refine ⟨?_, by decide, by decide⟩
  unfold autoGroup
  rw [bucketIndex_chooseGroupByCount, bucketIndex_chooseGroupByCount, jsOrNat_one, jsOrNat_one]
  split_ifs <;> omega

theorem autoGroup_monotone_witness :
    (3 : Nat) ≤ 9 ∧
    (bucketIndex (autoGroup 3) ≤ bucketIndex (autoGroup 9) ∧
      autoGroup 0 = autoGroup 1 ∧ autoGroup 1 = "1-4") :=
  ⟨by decide, autoGroup_monotone 3 9 (by decide)⟩

/-- C3 (as stated, refuted): a draft whose two endpoints each have a coordinate
and an empty label, with one employee, is ready in the specification's words, yet
`canCreate` is false for it. -/
theorem canCreate_coordinate_only_counterexample :
    isReadySpec
        { initialScreen ⟨2025, 0, 15, 10, 30, 0, 0⟩ with
          fromCoords := some ⟨1, 2⟩
          toCoords := some ⟨3, 4⟩
          employees := [⟨"e1", "Иванов Иван", some "Экипаж"⟩] } = true ∧
    canCreate
        { initialScreen ⟨2025, 0, 15, 10, 30, 0, 0⟩ with
          fromCoords := some ⟨1, 2⟩
          toCoords := some ⟨3, 4⟩
          employees := [⟨"e1", "Иванов Иван", some "Экипаж"⟩] } = false := by
  constructor <;> decide

/-- C3 (amended): `canCreate` is true exactly when the pickup label and the
dropoff label each hold a character that is not white space and the employee list
is non-empty. The coordinates play no part: replacing them never changes
`canCreate`, and a draft with an empty label is not ready whatever its
coordinates are. -/
theorem canCreate_iff_labels_and_roster (s : Screen) :
    (canCreate s = true ↔
      (∃ c ∈ s.from_.data, isJsWhiteSpace c = false) ∧
      (∃ c ∈ s.to_.data, isJsWhiteSpace c = false) ∧
      s.employees ≠ []) ∧
    (∀ cf ct : Option Coords,
      canCreate { s with fromCoords := cf, toCoords := ct } = canCreate s) ∧
    (∀ cf ct : Option Coords,
      canCreate { s with from_ := "", fromCoords := cf, toCoords := ct } = false) ∧
    (∀ cf ct : Option Coords,
      canCreate { s with to_ := "", fromCoords := cf, toCoords := ct } = false) := by
  have key : ∀ t : String, jsTrim t ≠ "" ↔ ∃ c ∈ t.data, isJsWhiteSpace c = false := by
    intro t
    rw [Ne, jsTrim_eq_empty_iff]
    push_neg
    simp
  refine ⟨?_, ?_, ?_, ?_⟩
  · rw [canCreate_iff, key, key]
  · intro cf ct
    rfl
  · intro cf ct
    simp [canCreate, jsTrim_empty, jsTruthyStr]
  · intro cf ct
    simp [canCreate, jsTrim_empty, jsTruthyStr]

theorem canCreate_false_of_unset (s : Screen)
    (h : s.employees = [] ∨ (s.from_ = "" ∧ s.fromCoords = none) ∨
      (s.to_ = "" ∧ s.toCoords = none)) : canCreate s = false := by
  rw [← Bool.not_eq_true, canCreate_iff]
  rintro ⟨hf, ht, he⟩
  rcases h with h | ⟨h, _⟩ | ⟨h, _⟩
  · exact he h
  · rw [h] at hf; exact hf jsTrim_empty
  · rw [h] at ht; exact ht jsTrim_empty

theorem commitRender_self (s : Screen) : commitRender s s = s := by
  simp [commitRender]

/-- C4: on a draft that is not ready (the employee list is empty, or the pickup
endpoint is unset, or the dropoff endpoint is unset) `createOrder` fails: it shows
the fill-in alert, creates no order, and the cells after the handler and after the
render that follows are exactly the cells before, so the active order and the
draft fields `from`, `to`, `fromCoords`, `toCoords`, `employees`, `vehGroup`,
`notes` and `date` are unchanged. -/
theorem createOrder_not_ready_unchanged (toISOString : JsDate → String) (x : ℚ)
    (nowCreated nowReset : JsDate) (s : Screen)
    (h : s.employees = [] ∨ (s.from_ = "" ∧ s.fromCoords = none) ∨
      (s.to_ = "" ∧ s.toCoords = none)) :
    (createOrder toISOString x nowCreated nowReset s).1 = s ∧
    (pressCreate toISOString x nowCreated nowReset s).1 = s ∧
    createdOrder toISOString s (Op.pressCreate x nowCreated nowReset) = none ∧
    (pressCreate toISOString x nowCreated nowReset s).2.title = "Заполните поля" := by
  have hc := canCreate_false_of_unset s h
  simp [createOrder, pressCreate, createdOrder, hc, commitRender_self]

theorem createOrder_not_ready_unchanged_witness :
    ((initialScreen ⟨2025, 0, 15, 10, 30, 0, 0⟩).employees = [] ∨
      ((initialScreen ⟨2025, 0, 15, 10, 30, 0, 0⟩).from_ = "" ∧
        (initialScreen ⟨2025, 0, 15, 10, 30, 0, 0⟩).fromCoords = none) ∨
      ((initialScreen ⟨2025, 0, 15, 10, 30, 0, 0⟩).to_ = "" ∧
        (initialScreen ⟨2025, 0, 15, 10, 30, 0, 0⟩).toCoords = none)) ∧
    ((createOrder (fun _ => "2025-01-15T07:30:00.000Z") 12345 ⟨2025, 0, 15, 10, 31, 0, 0⟩
        ⟨2025, 0, 15, 10, 31, 0, 1⟩ (initialScreen ⟨2025, 0, 15, 10, 30, 0, 0⟩)).1 =
        initialScreen ⟨2025, 0, 15, 10, 30, 0, 0⟩ ∧
     (pressCreate (fun _ => "2025-01-15T07:30:00.000Z") 12345 ⟨2025, 0, 15, 10, 31, 0, 0⟩
        ⟨2025, 0, 15, 10, 31, 0, 1⟩ (initialScreen ⟨2025, 0, 15, 10, 30, 0, 0⟩)).1 =
        initialScreen ⟨2025, 0, 15, 10, 30, 0, 0⟩ ∧
     createdOrder (fun _ => "2025-01-15T07:30:00.000Z") (initialScreen ⟨2025, 0, 15, 10, 30, 0, 0⟩)
        (Op.pressCreate 12345 ⟨2025, 0, 15, 10, 31, 0, 0⟩ ⟨2025, 0, 15, 10, 31, 0, 1⟩) = none ∧
     (pressCreate (fun _ => "2025-01-15T07:30:00.000Z") 12345 ⟨2025, 0, 15, 10, 31, 0, 0⟩
        ⟨2025, 0, 15, 10, 31, 0, 1⟩ (initialScreen ⟨2025, 0, 15, 10, 30, 0, 0⟩)).2.title =
        "Заполните поля") :=
  ⟨Or.inl rfl, createOrder_not_ready_unchanged _ _ _ _ _ (Or.inl rfl)⟩

theorem pressCreate_ready (toISOString : JsDate → String) (x : ℚ)
    (nowCreated nowReset : JsDate) (s : Screen) (h : canCreate s = true) :
    (pressCreate toISOString x nowCreated nowReset s).1 =
      { initialScreen nowReset with
        activeOrder := some (buildOrder toISOString x nowCreated s) } := by
  have he : s.employees ≠ [] := ((canCreate_iff s).mp h).2.2
  have hl : ¬ (0 = s.employees.length) := by
    intro h0
    exact he (List.length_eq_zero.mp h0.symm)
  simp only [pressCreate, createOrder, h, Bool.not_true, Bool.false_eq_true, if_false,
    commitRender, resetForm, List.length_nil, hl, vehGroupEffect, initialScreen]
  rfl

/-- C5: on a ready draft `createOrder` produces an order (it becomes the active
order) whose status is `"pending"`, whose `timeline.createdAt` is the current time
as read for it, whose other timeline fields `assignedAt`, `arrivedAtPickup`,
`departedAt`, `arrivedAtDropoff`, `finishedAt` and `travelTimeSec` are all null,
and whose ratings are `{ driver: null, passenger: null }`. -/
theorem createOrder_initial_timeline (toISOString : JsDate → String) (x : ℚ)
    (nowCreated nowReset : JsDate) (s : Screen) (h : canCreate s = true) :
    ∃ o : Order,
      createdOrder toISOString s (Op.pressCreate x nowCreated nowReset) = some o ∧
      (pressCreate toISOString x nowCreated nowReset s).1.activeOrder = some o ∧
      o.status = "pending" ∧
      o.timeline.createdAt = some (toISOString nowCreated) ∧
      o.timeline.assignedAt = none ∧
      o.timeline.arrivedAtPickup = none ∧
      o.timeline.departedAt = none ∧
      o.timeline.arrivedAtDropoff = none ∧
      o.timeline.finishedAt = none ∧
      o.timeline.travelTimeSec = none ∧
      o.ratings = { driver := none, passenger := none } := by
  refine ⟨buildOrder toISOString x nowCreated s, ?_, ?_, rfl, rfl, rfl, rfl, rfl, rfl, rfl,
    rfl, rfl⟩
  · simp [createdOrder, h]
  · rw [pressCreate_ready toISOString x nowCreated nowReset s h]

/-! ### Decimal rendering is injective -/

theorem toDigitsCore_eq (fuel : Nat) : ∀ (n : Nat) (ds : List Char), n < fuel →
    Nat.toDigitsCore 10 fuel n ds = (revDigits n).map Nat.digitChar ++ ds := by
  induction fuel with
  | zero => intro n ds h; omega
  | succ fuel ih =>
    intro n ds h
    rw [Nat.toDigitsCore]
    by_cases h0 : n / 10 = 0
    · have hlt : n < 10 := by omega
      simp only [h0, if_true]
      by_cases hn : n = 0
      · subst hn; rfl
      · have : Nat.digits 10 n = [n] := Nat.digits_of_lt 10 n hn hlt
        simp [revDigits, hn, this, Nat.mod_eq_of_lt hlt]
    · have hn : n ≠ 0 := by omega
      simp only [h0, if_false]
      rw [ih (n / 10) _ (by omega)]
      have hd : Nat.digits 10 n = (n % 10) :: Nat.digits 10 (n / 10) :=
        Nat.digits_def' (by decide) (Nat.pos_of_ne_zero hn)
      simp [revDigits, hn, h0, hd]

theorem repr_data (n : Nat) : (Nat.repr n).data = (revDigits n).map Nat.digitChar := by
  simp [Nat.repr, Nat.toDigits, toDigitsCore_eq (n + 1) n [] (Nat.lt_succ_self n),
    List.asString]

theorem revDigits_lt (n d : Nat) (h : d ∈ revDigits n) : d < 10 := by
  unfold revDigits at h
  split_ifs at h
  · simp at h; omega
  · exact Nat.digits_lt_base (by decide) (List.mem_reverse.mp h)

theorem revDigits_injective : Function.Injective revDigits := by
  intro a b h
  unfold revDigits at h
  have hz : ∀ n : Nat, n ≠ 0 → (Nat.digits 10 n).reverse ≠ [0] := by
    intro n hn hr
    have h1 : Nat.digits 10 n = [0] := by
      have := congrArg List.reverse hr
      simpa using this
    have h2 := Nat.getLast_digit_ne_zero 10 hn
    simp [h1] at h2
  split_ifs at h with ha hb hb
  · rw [ha, hb]
  · exact absurd h.symm (hz b hb)
  · exact absurd h (hz a ha)
  · exact Nat.digits.injective 10 (List.reverse_injective h)

theorem digitValue_digitChar (d : Nat) (h : d < 10) : digitValue (Nat.digitChar d) = d := by
  interval_cases d <;> rfl

theorem digitChar_ne_minus (d : Nat) (h : d < 10) : Nat.digitChar d ≠ '-' := by
  interval_cases d <;> decide

theorem repr_injective : Function.Injective Nat.repr := by
  intro a b h
  have hd := congrArg String.data h
  rw [repr_data, repr_data] at hd
  have hv := congrArg (List.map digitValue) hd
  rw [List.map_map, List.map_map] at hv
  have hid : ∀ n : Nat, (revDigits n).map (digitValue ∘ Nat.digitChar) = revDigits n := by
    intro n
    conv_rhs => rw [← List.map_id (revDigits n)]
    apply List.map_congr_left
    intro d hd
    simp [digitValue_digitChar d (revDigits_lt n d hd)]
  rw [hid, hid] at hv
  exact revDigits_injective hv

theorem repr_head_ne_minus (n : Nat) (t : List Char) : (Nat.repr n).data ≠ '-' :: t := by
  rw [repr_data]
  intro h
  have hne : revDigits n ≠ [] := by
    unfold revDigits
    split_ifs with hn
    · simp
    · simpa [Nat.digits_eq_nil_iff_eq_zero] using hn
  obtain ⟨d, ds, hds⟩ := List.exists_cons_of_ne_nil hne
  rw [hds] at h
  simp only [List.map_cons, List.cons.injEq] at h
  exact digitChar_ne_minus d (revDigits_lt n d (by rw [hds]; simp)) h.1

theorem jsStringOfInt_injective : Function.Injective jsStringOfInt := by
  intro a b h
  cases a with
  | ofNat m =>
    cases b with
    | ofNat k => exact congrArg Int.ofNat (repr_injective h)
    | negSucc k =>
      exfalso
      have := congrArg String.data h
      exact repr_head_ne_minus m _ this
  | negSucc m =>
    cases b with
    | ofNat k =>
      exfalso
      have := congrArg String.data h
      exact repr_head_ne_minus k _ this.symm
    | negSucc k =>
      have hd := congrArg String.data h
      simp only [jsStringOfInt, String.data_append] at hd
      have h2 : (Nat.repr (m + 1)).data = (Nat.repr (k + 1)).data := by
        simpa using hd
      have h3 : Nat.repr (m + 1) = Nat.repr (k + 1) := String.ext h2
      have := repr_injective h3
      have hmk : m = k := by omega
      rw [hmk]

theorem scenarioDraft_ready : canCreate scenarioDraft = true := by decide

theorem createOrder_initial_timeline_witness :
    canCreate scenarioDraft = true ∧
    ∃ o : Order,
      createdOrder sampleISO scenarioDraft (Op.pressCreate 12345 sampleNow sampleNow) = some o ∧
      (pressCreate sampleISO 12345 sampleNow sampleNow scenarioDraft).1.activeOrder = some o ∧
      o.status = "pending" ∧
      o.timeline.createdAt = some (sampleISO sampleNow) ∧
      o.timeline.assignedAt = none ∧
      o.timeline.arrivedAtPickup = none ∧
      o.timeline.departedAt = none ∧
      o.timeline.arrivedAtDropoff = none ∧
      o.timeline.finishedAt = none ∧
      o.timeline.travelTimeSec = none ∧
      o.ratings = { driver := none, passenger := none } :=
  ⟨by decide, createOrder_initial_timeline sampleISO 12345 sampleNow sampleNow scenarioDraft
    (by decide)⟩

/-- C6 (as stated, refuted): two successful commits of a ready draft whose random
products differ, `50000.25` and `50000.75`, get the same order id `"50000"`. -/
theorem orderId_collision_counterexample :
    canCreate scenarioDraft = true ∧
    (50000.25 : ℚ) ≠ 50000.75 ∧
    (buildOrder sampleISO 50000.25 sampleNow scenarioDraft).id = "50000" ∧
    (buildOrder sampleISO 50000.75 sampleNow scenarioDraft).id = "50000" ∧
    (createOrder sampleISO 50000.25 sampleNow sampleNow scenarioDraft).1.activeOrder.map
        (fun o => o.id) =
      (createOrder sampleISO 50000.75 sampleNow sampleNow scenarioDraft).1.activeOrder.map
        (fun o => o.id) := by
  have h1 : ⌊(50000.25 : ℚ)⌋ = 50000 := by rw [Int.floor_eq_iff]; norm_num
  have h2 : ⌊(50000.75 : ℚ)⌋ = 50000 := by rw [Int.floor_eq_iff]; norm_num
  have hr : canCreate scenarioDraft = true := by decide
  refine ⟨hr, by norm_num, ?_, ?_, ?_⟩
  · show jsStringOfInt ⌊(50000.25 : ℚ)⌋ = "50000"
    rw [h1]; decide
  · show jsStringOfInt ⌊(50000.75 : ℚ)⌋ = "50000"
    rw [h2]; decide
  · simp [createOrder, hr, resetForm, buildOrder, orderId, h1, h2]

/-- C6 (amended): the id of the order a commit creates is the decimal numeral of
the integer part of that commit's random product. Two commits of ready drafts get
the same id exactly when their random products have the same integer part, and
different ids exactly when the integer parts differ; the id does not depend on
the draft or on the clock. -/
theorem orderId_eq_iff_floor_eq (toISOString : JsDate → String) (x₁ x₂ : ℚ)
    (now₁ now₂ : JsDate) (s₁ s₂ : Screen) :
    ((buildOrder toISOString x₁ now₁ s₁).id = (buildOrder toISOString x₂ now₂ s₂).id ↔
      ⌊x₁⌋ = ⌊x₂⌋) ∧
    (buildOrder toISOString x₁ now₁ s₁).id = jsStringOfInt ⌊x₁⌋ := by
  refine ⟨?_, rfl⟩
  show jsStringOfInt ⌊x₁⌋ = jsStringOfInt ⌊x₂⌋ ↔ ⌊x₁⌋ = ⌊x₂⌋
  exact jsStringOfInt_injective.eq_iff

theorem AutoSuggested_commitRender (prev next : Screen)
    (h : next.employees.length = prev.employees.length → AutoSuggested next) :
    AutoSuggested (commitRender prev next) := by
  unfold commitRender
  split_ifs with hl
  · exact h hl
  · rfl

theorem AutoSuggested_of_eq (s t : Screen) (h : AutoSuggested s)
    (hv : t.vehGroup = s.vehGroup) (he : t.employees = s.employees) : AutoSuggested t := by
  unfold AutoSuggested
  rw [hv, he]
  exact h

theorem AutoSuggested_resetForm (now : JsDate) (s : Screen) :
    AutoSuggested (resetForm now s) := by
  show "1-4" = autoGroup 0
  decide

theorem AutoSuggested_step (toISOString : JsDate → String) (s : Screen) (op : Op)
    (hop : op.isPressGroup = false) (h : AutoSuggested s) :
    AutoSuggested (step toISOString s op) := by
  cases op with
  | pressGroup i => simp [Op.isPressGroup] at hop
  | openEmp =>
    exact AutoSuggested_commitRender _ _ (fun _ => AutoSuggested_of_eq s _ h rfl rfl)
  | updateEmployees list =>
    apply AutoSuggested_commitRender
    intro hl
    unfold AutoSuggested
    show s.vehGroup = autoGroup list.length
    have hl2 : list.length = s.employees.length := hl
    rw [hl2]
    exact h
  | closeEmp =>
    exact AutoSuggested_commitRender _ _ (fun _ => AutoSuggested_of_eq s _ h rfl rfl)
  | openMap t =>
    exact AutoSuggested_commitRender _ _ (fun _ => AutoSuggested_of_eq s _ h rfl rfl)
  | confirmPick coords address =>
    apply AutoSuggested_commitRender
    intro _
    apply AutoSuggested_of_eq s _ h
    · simp only [onCloseMap, onPick]; split_ifs <;> rfl
    · simp only [onCloseMap, onPick]; split_ifs <;> rfl
  | cancelPick =>
    exact AutoSuggested_commitRender _ _ (fun _ => AutoSuggested_of_eq s _ h rfl rfl)
  | editNotes text =>
    exact AutoSuggested_commitRender _ _ (fun _ => AutoSuggested_of_eq s _ h rfl rfl)
  | openDate =>
    exact AutoSuggested_commitRender _ _ (fun _ => AutoSuggested_of_eq s _ h rfl rfl)
  | openTime =>
    exact AutoSuggested_commitRender _ _ (fun _ => AutoSuggested_of_eq s _ h rfl rfl)
  | changeDate setFullYear d =>
    apply AutoSuggested_commitRender
    intro _
    cases d <;> exact AutoSuggested_of_eq s _ h rfl rfl
  | changeTime setHours t =>
    apply AutoSuggested_commitRender
    intro _
    cases t <;> exact AutoSuggested_of_eq s _ h rfl rfl
  | pressCreate x nowCreated nowReset =>
    show AutoSuggested (commitRender s (createOrder toISOString x nowCreated nowReset s).1)
    apply AutoSuggested_commitRender
    intro _
    unfold createOrder
    by_cases hc : canCreate s = true
    · simp only [hc, Bool.not_true, Bool.false_eq_true, if_false]
      exact AutoSuggested_resetForm _ _
    · simp only [hc, Bool.not_false, if_true]
      exact h
  | confirmCancel nowReset =>
    exact AutoSuggested_commitRender _ _ (fun _ => AutoSuggested_resetForm _ _)

theorem AutoSuggested_run (toISOString : JsDate → String) (ops : List Op) :
    ∀ s : Screen, (∀ op ∈ ops, op.isPressGroup = false) → AutoSuggested s →
      AutoSuggested (run toISOString s ops) := by
  induction ops with
  | nil => intro s _ h; exact h
  | cons op ops ih =>
    intro s hops h
    exact ih _ (fun o ho => hops o (List.mem_cons_of_mem _ ho))
      (AutoSuggested_step toISOString s op (hops op (List.mem_cons_self _ _)) h)

theorem AutoSuggested_mount (now : JsDate) : AutoSuggested (mountScreen now) := rfl

theorem mountScreen_eq (now : JsDate) : mountScreen now = initialScreen now := rfl

/-- C7: after a successful `createOrder` on a ready draft (and the render that
follows) every draft cell has the value it has in a freshly mounted screen whose
clock reading is the one `resetForm` took: `from` and `to` are empty, both
coordinates are null, `employees` is empty, `vehGroup` is `"1-4"`, `notes` is
empty, `date` is the current time, and the employee picker, the map picker, the
date picker and the time picker are closed. -/
theorem createOrder_resets_draft (toISOString : JsDate → String) (x : ℚ)
    (nowCreated nowReset : JsDate) (s : Screen) (h : canCreate s = true) :
    { (pressCreate toISOString x nowCreated nowReset s).1 with activeOrder := none } =
      mountScreen nowReset ∧
    (pressCreate toISOString x nowCreated nowReset s).1.from_ = "" ∧
    (pressCreate toISOString x nowCreated nowReset s).1.to_ = "" ∧
    (pressCreate toISOString x nowCreated nowReset s).1.fromCoords = none ∧
    (pressCreate toISOString x nowCreated nowReset s).1.toCoords = none ∧
    (pressCreate toISOString x nowCreated nowReset s).1.employees = [] ∧
    (pressCreate toISOString x nowCreated nowReset s).1.vehGroup = "1-4" ∧
    (pressCreate toISOString x nowCreated nowReset s).1.notes = "" ∧
    (pressCreate toISOString x nowCreated nowReset s).1.date = nowReset ∧
    (pressCreate toISOString x nowCreated nowReset s).1.empModal = false ∧
    (pressCreate toISOString x nowCreated nowReset s).1.mapModal =
      { open_ := false, target := Target.from_ } ∧
    (pressCreate toISOString x nowCreated nowReset s).1.showDate = false ∧
    (pressCreate toISOString x nowCreated nowReset s).1.showTime = false := by
  rw [pressCreate_ready toISOString x nowCreated nowReset s h]
  exact ⟨rfl, rfl, rfl, rfl, rfl, rfl, rfl, rfl, rfl, rfl, rfl, rfl, rfl⟩

theorem createOrder_resets_draft_witness :
    canCreate scenarioDraft = true ∧
    ({ (pressCreate sampleISO 12345 sampleNow sampleNow scenarioDraft).1 with
        activeOrder := none } = mountScreen sampleNow ∧
    (pressCreate sampleISO 12345 sampleNow sampleNow scenarioDraft).1.from_ = "" ∧
    (pressCreate sampleISO 12345 sampleNow sampleNow scenarioDraft).1.to_ = "" ∧
    (pressCreate sampleISO 12345 sampleNow sampleNow scenarioDraft).1.fromCoords = none ∧
    (pressCreate sampleISO 12345 sampleNow sampleNow scenarioDraft).1.toCoords = none ∧
    (pressCreate sampleISO 12345 sampleNow sampleNow scenarioDraft).1.employees = [] ∧
    (pressCreate sampleISO 12345 sampleNow sampleNow scenarioDraft).1.vehGroup = "1-4" ∧
    (pressCreate sampleISO 12345 sampleNow sampleNow scenarioDraft).1.notes = "" ∧
    (pressCreate sampleISO 12345 sampleNow sampleNow scenarioDraft).1.date = sampleNow ∧
    (pressCreate sampleISO 12345 sampleNow sampleNow scenarioDraft).1.empModal = false ∧
    (pressCreate sampleISO 12345 sampleNow sampleNow scenarioDraft).1.mapModal =
      { open_ := false, target := Target.from_ } ∧
    (pressCreate sampleISO 12345 sampleNow sampleNow scenarioDraft).1.showDate = false ∧
    (pressCreate sampleISO 12345 sampleNow sampleNow scenarioDraft).1.showTime = false) :=
  ⟨by decide, createOrder_resets_draft sampleISO 12345 sampleNow sampleNow scenarioDraft
    (by decide)⟩

/-- C8: on a ready draft the order `createOrder` produces is a snapshot of the
draft: `from`, `to`, `fromCoords`, `toCoords`, `employees` and `notes` are the
draft's, `requirements.vehicleGroup` is the draft's current vehicle group and
`requirements.pax` is the number of employees. When the draft has 3 employees and
its group is the suggested one (no manual override) the order has
`employees.length = 3` and `vehicleGroup = "1-4"`; that is so in particular for
every draft with 3 employees reached from the mounted screen without a press on a
group button. -/
theorem createOrder_snapshot (toISOString : JsDate → String) (x : ℚ)
    (nowCreated nowReset : JsDate) (s : Screen) (h : canCreate s = true) :
    ∃ o : Order,
      createdOrder toISOString s (Op.pressCreate x nowCreated nowReset) = some o ∧
      (pressCreate toISOString x nowCreated nowReset s).1.activeOrder = some o ∧
      o.from_ = s.from_ ∧ o.to_ = s.to_ ∧
      o.fromCoords = s.fromCoords ∧ o.toCoords = s.toCoords ∧
      o.employees = s.employees ∧ o.requirements.notes = s.notes ∧
      o.requirements.vehicleGroup = s.vehGroup ∧
      o.requirements.pax = s.employees.length ∧
      (s.employees.length = 3 → s.vehGroup = autoGroup s.employees.length →
        o.employees.length = 3 ∧ o.requirements.vehicleGroup = "1-4") ∧
      (∀ (now : JsDate) (ops : List Op), (∀ op ∈ ops, op.isPressGroup = false) →
        s = run toISOString (mountScreen now) ops → s.employees.length = 3 →
        o.employees.length = 3 ∧ o.requirements.vehicleGroup = "1-4") := by
  have he : s.employees ≠ [] := ((canCreate_iff s).mp h).2.2
  have hpos : 0 < s.employees.length := List.length_pos.mpr he
  have hgroup : s.employees.length = 3 → s.vehGroup = autoGroup s.employees.length →
      s.employees.length = 3 ∧ s.vehGroup = "1-4" := by
    intro h3 hauto
    refine ⟨h3, ?_⟩
    rw [hauto, h3]
    decide
  refine ⟨buildOrder toISOString x nowCreated s, ?_, ?_, rfl, rfl, rfl, rfl, rfl, rfl, rfl,
    ?_, hgroup, ?_⟩
  · simp [createdOrder, h]
  · rw [pressCreate_ready toISOString x nowCreated nowReset s h]
  · show max 1 s.employees.length = s.employees.length
    omega
  · intro now ops hops hs h3
    apply hgroup h3
    rw [hs]
    exact AutoSuggested_run toISOString ops _ hops (AutoSuggested_mount now)

theorem createOrder_snapshot_witness :
    canCreate scenarioDraft = true ∧
    scenarioDraft.employees.length = 3 ∧
    scenarioDraft.vehGroup = autoGroup scenarioDraft.employees.length ∧
    ∃ o : Order,
      (pressCreate sampleISO 12345 sampleNow sampleNow scenarioDraft).1.activeOrder = some o ∧
      o.from_ = "A" ∧ o.to_ = "B" ∧
      o.fromCoords = some ⟨59.93, 30.33⟩ ∧ o.toCoords = some ⟨59.95, 30.40⟩ ∧
      o.employees = MOCK_EMPLOYEES.take 3 ∧
      o.requirements.pax = 3 ∧
      o.employees.length = 3 ∧ o.requirements.vehicleGroup = "1-4" := by
  obtain ⟨o, _, h2, h3, h4, h5, h6, h7, _, _, h10, h11, _⟩ :=
    createOrder_snapshot sampleISO 12345 sampleNow sampleNow scenarioDraft (by decide)
  have hs := h11 (by decide) (by decide)
  exact ⟨by decide, by decide, by decide, o, h2, h3, h4, h5, h6, h7, h10, hs.1, hs.2⟩

/-- C9 (as stated, refuted): with one employee committed and the group `"6-8"`
then chosen by hand, committing another selection of one employee leaves the
group at `"6-8"`, while `chooseGroupByCount(max(1, 1))` is `"1-4"`. -/
theorem updateEmployees_same_size_counterexample :
    (updateEmployees (MOCK_EMPLOYEES.drop 1 |>.take 1)
        (pressGroup ⟨1, by decide⟩
          (updateEmployees (MOCK_EMPLOYEES.take 1) (mountScreen sampleNow)))).vehGroup = "6-8" ∧
    chooseGroupByCount (max 1 (MOCK_EMPLOYEES.drop 1 |>.take 1).length) = "1-4" ∧
    (updateEmployees (MOCK_EMPLOYEES.drop 1 |>.take 1)
        (pressGroup ⟨1, by decide⟩
          (updateEmployees (MOCK_EMPLOYEES.take 1) (mountScreen sampleNow)))).vehGroup ≠
      chooseGroupByCount (max 1 (MOCK_EMPLOYEES.drop 1 |>.take 1).length) := by
  refine ⟨by decide, by decide, by decide⟩

/-- C9 (amended): after `updateEmployees(selection)` the employees are the
selection, and the vehicle group is `chooseGroupByCount(max(1, |selection|))`
whenever the size of the selection differs from the previous number of employees,
whatever the group was before (a group chosen by hand is overwritten); when the
size is the same as before, the group is left as it was. -/
theorem updateEmployees_vehGroup (list : List Employee) (s : Screen) :
    (updateEmployees list s).employees = list ∧
    (updateEmployees list s).vehGroup =
      if list.length = s.employees.length then s.vehGroup
      else chooseGroupByCount (max 1 list.length) := by
  unfold updateEmployees commitRender onCloseEmp onDone
  by_cases h : list.length = s.employees.length
  · simp [h]
  · simp [h, vehGroupEffect, jsOrNat_one]

theorem chooseGroupByCount_mem (n : Nat) : chooseGroupByCount n ∈ vehGroupKeys := by
  unfold chooseGroupByCount
  split_ifs <;> decide

theorem key_mem (i : Fin VEH_GROUPS.length) : (VEH_GROUPS.get i).key ∈ vehGroupKeys :=
  List.mem_map.mpr ⟨VEH_GROUPS.get i, List.get_mem _ _ _, rfl⟩

theorem GroupsValid_commitRender (prev next : Screen) (h : GroupsValid next) :
    GroupsValid (commitRender prev next) := by
  unfold commitRender
  split_ifs
  · exact h
  · exact ⟨chooseGroupByCount_mem _, h.2⟩

theorem GroupsValid_of_eq (s t : Screen) (h : GroupsValid s)
    (hv : t.vehGroup = s.vehGroup) (ha : t.activeOrder = s.activeOrder) : GroupsValid t := by
  unfold GroupsValid
  rw [hv, ha]
  exact h

theorem firstKey_mem : "1-4" ∈ vehGroupKeys := by decide

theorem GroupsValid_initial (now : JsDate) : GroupsValid (initialScreen now) :=
  ⟨firstKey_mem, fun o h => by simp [initialScreen] at h⟩

theorem GroupsValid_resetForm (now : JsDate) (s : Screen)
    (h : ∀ o : Order, s.activeOrder = some o → o.requirements.vehicleGroup ∈ vehGroupKeys) :
    GroupsValid (resetForm now s) :=
  ⟨firstKey_mem, h⟩

theorem GroupsValid_step (toISOString : JsDate → String) (s : Screen) (op : Op)
    (h : GroupsValid s) : GroupsValid (step toISOString s op) := by
  cases op with
  | pressGroup i =>
    exact GroupsValid_commitRender _ _ ⟨key_mem i, h.2⟩
  | openEmp => exact GroupsValid_commitRender _ _ (GroupsValid_of_eq s _ h rfl rfl)
  | updateEmployees list => exact GroupsValid_commitRender _ _ (GroupsValid_of_eq s _ h rfl rfl)
  | closeEmp => exact GroupsValid_commitRender _ _ (GroupsValid_of_eq s _ h rfl rfl)
  | openMap t => exact GroupsValid_commitRender _ _ (GroupsValid_of_eq s _ h rfl rfl)
  | confirmPick coords address =>
    apply GroupsValid_commitRender
    apply GroupsValid_of_eq s _ h
    · simp only [onCloseMap, onPick]; split_ifs <;> rfl
    · simp only [onCloseMap, onPick]; split_ifs <;> rfl
  | cancelPick => exact GroupsValid_commitRender _ _ (GroupsValid_of_eq s _ h rfl rfl)
  | editNotes text => exact GroupsValid_commitRender _ _ (GroupsValid_of_eq s _ h rfl rfl)
  | openDate => exact GroupsValid_commitRender _ _ (GroupsValid_of_eq s _ h rfl rfl)
  | openTime => exact GroupsValid_commitRender _ _ (GroupsValid_of_eq s _ h rfl rfl)
  | changeDate setFullYear d =>
    apply GroupsValid_commitRender
    cases d <;> exact GroupsValid_of_eq s _ h rfl rfl
  | changeTime setHours t =>
    apply GroupsValid_commitRender
    cases t <;> exact GroupsValid_of_eq s _ h rfl rfl
  | pressCreate x nowCreated nowReset =>
    show GroupsValid (commitRender s (createOrder toISOString x nowCreated nowReset s).1)
    apply GroupsValid_commitRender
    unfold createOrder
    by_cases hc : canCreate s = true
    · simp only [hc, Bool.not_true, Bool.false_eq_true, if_false]
      apply GroupsValid_resetForm
      intro o ho
      simp only [Option.some.injEq] at ho
      rw [← ho]
      exact h.1
    · simp only [hc, Bool.not_false, if_true]
      exact h
  | confirmCancel nowReset =>
    apply GroupsValid_commitRender
    apply GroupsValid_resetForm
    intro o ho
    simp at ho

theorem GroupsValid_run (toISOString : JsDate → String) (ops : List Op) :
    ∀ s : Screen, GroupsValid s → GroupsValid (run toISOString s ops) := by
  induction ops with
  | nil => intro s h; exact h
  | cons op ops ih =>
    intro s h
    exact ih _ (GroupsValid_step toISOString s op h)

/-- C10: in every state the form reaches from the mounted screen by any sequence
of operations (group buttons, employee updates, endpoint picks, notes, date and
time changes, commit, cancel with its reset) the cell `vehGroup` is one of the
four keys `"1-4"`, `"6-8"`, `"10-15"`, `"30-40"`, and so is
`requirements.vehicleGroup` of the active order and of every order an operation
creates in such a state. -/
theorem vehGroup_always_valid (toISOString : JsDate → String) (now : JsDate)
    (ops : List Op) :
    (run toISOString (mountScreen now) ops).vehGroup ∈ ["1-4", "6-8", "10-15", "30-40"] ∧
    (∀ o : Order, (run toISOString (mountScreen now) ops).activeOrder = some o →
      o.requirements.vehicleGroup ∈ ["1-4", "6-8", "10-15", "30-40"]) ∧
    (∀ (op : Op) (o : Order),
      createdOrder toISOString (run toISOString (mountScreen now) ops) op = some o →
      o.requirements.vehicleGroup ∈ ["1-4", "6-8", "10-15", "30-40"]) := by
  have hinv := GroupsValid_run toISOString ops (mountScreen now) (GroupsValid_initial now)
  refine ⟨hinv.1, hinv.2, ?_⟩
  intro op o ho
  cases op with
  | pressCreate x nowCreated nowReset =>
    simp only [createdOrder] at ho
    split_ifs at ho
    simp only [Option.some.injEq] at ho
    rw [← ho]
    exact hinv.1
  | _ => simp [createdOrder] at ho

/-- C11 (as stated, refuted): with today 15 January 2025 and the draft's date
that day at 10:30, the date handler given 10 January 2025 does not reject it: the
draft's date becomes 10 January 2025, 10:30 (a time of day that exists on that
day, so `setFullYear` only replaces the calendar day). -/
theorem onChangeDate_past_day_counterexample :
    isEarlierDay ⟨2025, 0, 10, 0, 0, 0, 0⟩ sampleNow = true ∧
    (mountScreen sampleNow).date = sampleNow ∧
    (changeDate sampleSetFullYear (some ⟨2025, 0, 10, 0, 0, 0, 0⟩)
      (mountScreen sampleNow)).date = ⟨2025, 0, 10, 10, 30, 0, 0⟩ ∧
    (changeDate sampleSetFullYear (some ⟨2025, 0, 10, 0, 0, 0, 0⟩)
      (mountScreen sampleNow)).date ≠ (mountScreen sampleNow).date ∧
    isEarlierDay
      (changeDate sampleSetFullYear (some ⟨2025, 0, 10, 0, 0, 0, 0⟩)
        (mountScreen sampleNow)).date sampleNow = true := by
  refine ⟨by decide, by decide, by decide, by decide, by decide⟩

theorem commitRender_same_length (prev next : Screen)
    (h : next.employees.length = prev.employees.length) : commitRender prev next = next := by
  simp [commitRender, h]

/-- C11 (amended): the date handler accepts every date the picker delivers,
whether or not its calendar day is earlier than today's. The draft's date becomes
the copy of the old date on which `setFullYear` was called with the year, month
and day of `d`; whenever the method lands on that calendar day, the draft's date
is as early a day, compared with today, as `d` is; the date picker is closed and
no other cell changes. When the picker delivers no date, only the date picker is
closed. The handler shows no alert and returns nothing. -/
theorem onChangeDate_accepts_any_day (setFullYear : JsDate → Int → Int → Int → JsDate)
    (s : Screen) (d today : JsDate) :
    changeDate setFullYear (some d) s =
      { s with showDate := false, date := setFullYear s.date d.year d.month d.day } ∧
    (changeDate setFullYear (some d) s).date = setFullYear s.date d.year d.month d.day ∧
    ((setFullYear s.date d.year d.month d.day).year = d.year →
      (setFullYear s.date d.year d.month d.day).month = d.month →
      (setFullYear s.date d.year d.month d.day).day = d.day →
      isEarlierDay (changeDate setFullYear (some d) s).date today = isEarlierDay d today) ∧
    changeDate setFullYear none s = { s with showDate := false } := by
  have h1 : changeDate setFullYear (some d) s =
      { s with showDate := false, date := setFullYear s.date d.year d.month d.day } :=
    commitRender_same_length s (onChangeDate setFullYear (some d) s) rfl
  refine ⟨h1, by rw [h1], ?_, ?_⟩
  · intro hy hm hd
    rw [h1]
    simp only [isEarlierDay, hy, hm, hd]
  · exact commitRender_same_length s (onChangeDate setFullYear none s) rfl

/-- C12 (as stated, refuted): the order created from the scenario draft is active
with status `"pending"`; after the confirmed cancel there is no active order at
all, so none with status `"cancelled"`. -/
theorem confirmCancel_discards_counterexample :
    (pressCreate sampleISO 12345 sampleNow sampleNow scenarioDraft).1.activeOrder.map
        (fun o => o.status) = some "pending" ∧
    isTerminalStatus "pending" = false ∧
    (confirmCancel sampleNow
        (pressCreate sampleISO 12345 sampleNow sampleNow scenarioDraft).1).activeOrder = none ∧
    (confirmCancel sampleNow
        (pressCreate sampleISO 12345 sampleNow sampleNow scenarioDraft).1).activeOrder ≠
      (pressCreate sampleISO 12345 sampleNow sampleNow scenarioDraft).1.activeOrder.map
        cancelledSpec := by
  have h1 : (pressCreate sampleISO 12345 sampleNow sampleNow scenarioDraft).1.activeOrder =
      some (buildOrder sampleISO 12345 sampleNow scenarioDraft) := by
    rw [pressCreate_ready sampleISO 12345 sampleNow sampleNow scenarioDraft (by decide)]
  have h2 : ∀ s : Screen, (confirmCancel sampleNow s).activeOrder = none := by
    intro s
    unfold confirmCancel commitRender
    split_ifs <;> rfl
  refine ⟨?_, by decide, h2 _, ?_⟩
  · rw [h1]; rfl
  · rw [h2, h1]; simp

/-- C12 (amended): the confirmed cancel action discards the active order, whatever
its status: afterwards there is no active order, and every draft cell has the
value of a freshly mounted screen whose clock reading is the one `resetForm`
took. No order with status `"cancelled"` is produced. -/
theorem confirmCancel_discards_order (nowReset : JsDate) (s : Screen) :
    (confirmCancel nowReset s).activeOrder = none ∧
    confirmCancel nowReset s = mountScreen nowReset := by
  have h : confirmCancel nowReset s = mountScreen nowReset := by
    unfold confirmCancel commitRender
    split_ifs <;> rfl
  exact ⟨by rw [h]; rfl, h⟩

theorem jsOrStr_empty (a : String) : jsOrStr a "" = a := by
  unfold jsOrStr
  split_ifs with h
  · exact h.symm
  · rfl

/-- C13: when `confirm` runs with a selected point it hands `{ coords, address }`
to `onPick` and closes; and for the target `t` the map was opened for, the pick
makes the label of endpoint `t` the address (the empty string when the address is
empty) and its coordinate the picked point, while the label and coordinate of the
other endpoint, the employees, the vehicle group, the notes and the date are
unchanged. -/
theorem confirmPick_sets_target_only (m : MapPicker) (c : Coords) (s : Screen) (t : Target)
    (hc : m.coord = some c) (ht : s.mapModal.target = t) :
    (confirm m).picked = some { coords := c, address := m.address } ∧
    (confirm m).closed = true ∧
    endpointLabel t (confirmPick c m.address s) = jsOrStr m.address "" ∧
    jsOrStr m.address "" = m.address ∧
    endpointCoords t (confirmPick c m.address s) = some c ∧
    endpointLabel t.other (confirmPick c m.address s) = endpointLabel t.other s ∧
    endpointCoords t.other (confirmPick c m.address s) = endpointCoords t.other s ∧
    (confirmPick c m.address s).employees = s.employees ∧
    (confirmPick c m.address s).vehGroup = s.vehGroup ∧
    (confirmPick c m.address s).notes = s.notes ∧
    (confirmPick c m.address s).date = s.date := by
  have hlen : (onCloseMap (onPick (some c) m.address s)).employees.length =
      s.employees.length := by
    simp only [onCloseMap, onPick]; split_ifs <;> rfl
  have hcp : confirmPick c m.address s = onCloseMap (onPick (some c) m.address s) :=
    commitRender_same_length s _ hlen
  rw [hcp]
  refine ⟨by simp [confirm, hc], by simp [confirm, hc], ?_, jsOrStr_empty _, ?_, ?_, ?_, ?_,
    ?_, ?_, ?_⟩ <;>
    cases t <;> simp [onCloseMap, onPick, ht, endpointLabel, endpointCoords, Target.other]

theorem confirmPick_sets_target_only_witness :
    sampleResolving.coord = some samplePointB ∧
    (openMap Target.to_ scenarioDraft).mapModal.target = Target.to_ ∧
    ((confirm sampleResolving).picked =
        some { coords := samplePointB, address := sampleResolving.address } ∧
    (confirm sampleResolving).closed = true ∧
    endpointLabel Target.to_
        (confirmPick samplePointB sampleResolving.address
          (openMap Target.to_ scenarioDraft)) = jsOrStr sampleResolving.address "" ∧
    jsOrStr sampleResolving.address "" = sampleResolving.address ∧
    endpointCoords Target.to_
        (confirmPick samplePointB sampleResolving.address
          (openMap Target.to_ scenarioDraft)) = some samplePointB ∧
    endpointLabel Target.to_.other
        (confirmPick samplePointB sampleResolving.address
          (openMap Target.to_ scenarioDraft)) =
      endpointLabel Target.to_.other (openMap Target.to_ scenarioDraft) ∧
    endpointCoords Target.to_.other
        (confirmPick samplePointB sampleResolving.address
          (openMap Target.to_ scenarioDraft)) =
      endpointCoords Target.to_.other (openMap Target.to_ scenarioDraft) ∧
    (confirmPick samplePointB sampleResolving.address
        (openMap Target.to_ scenarioDraft)).employees =
      (openMap Target.to_ scenarioDraft).employees ∧
    (confirmPick samplePointB sampleResolving.address
        (openMap Target.to_ scenarioDraft)).vehGroup =
      (openMap Target.to_ scenarioDraft).vehGroup ∧
    (confirmPick samplePointB sampleResolving.address
        (openMap Target.to_ scenarioDraft)).notes =
      (openMap Target.to_ scenarioDraft).notes ∧
    (confirmPick samplePointB sampleResolving.address
        (openMap Target.to_ scenarioDraft)).date =
      (openMap Target.to_ scenarioDraft).date) :=
  ⟨rfl, rfl, confirmPick_sets_target_only sampleResolving samplePointB
    (openMap Target.to_ scenarioDraft) Target.to_ rfl rfl⟩

/-- C18: `runSearch` leaves the selected point, the address label, the resolving
flag and the last-used region (indeed every cell) unchanged, and starts no
reverse resolution, whenever the search text trims to empty, and whenever the
geocoding provider answers with no match or raises an error; the same holds of
its continuation on whatever cells the answer finds. -/
theorem runSearch_failure_unchanged (geocodeAsync : String → Outcome (List GeoPoint))
    (m later : MapPicker)
    (h : jsTrim m.search = "" ∨
      geocodeAsync (jsTrim m.search) = Outcome.resolved [] ∨
      geocodeAsync (jsTrim m.search) = Outcome.rejected) :
    (runSearch geocodeAsync m).1 = m ∧
    (runSearch geocodeAsync m).2 = [] ∧
    (runSearch geocodeAsync m).1.coord = m.coord ∧
    (runSearch geocodeAsync m).1.address = m.address ∧
    (runSearch geocodeAsync m).1.loadingAddr = m.loadingAddr ∧
    (runSearch geocodeAsync m).1.lastRegion = m.lastRegion ∧
    (jsTrim m.search = "" → runSearchStart m = (m, [])) ∧
    runSearchFinish (Outcome.resolved []) later = (later, []) ∧
    runSearchFinish Outcome.rejected later = (later, []) := by
  have hr : runSearch geocodeAsync m = (m, []) := by
    unfold runSearch
    rcases h with h | h | h
    · simp [h]
    · by_cases h0 : jsTrim m.search = ""
      · simp [h0]
      · simp [h0, h, runSearchFinish]
    · by_cases h0 : jsTrim m.search = ""
      · simp [h0]
      · simp [h0, h, runSearchFinish]
  rw [hr]
  refine ⟨rfl, rfl, rfl, rfl, rfl, rfl, ?_, rfl, rfl⟩
  intro h0
  simp [runSearchStart, h0]

theorem runSearch_failure_unchanged_witness :
    (jsTrim { sampleResolving with search := "   " }.search = "" ∨
      (fun _ => Outcome.rejected : String → Outcome (List GeoPoint))
        (jsTrim { sampleResolving with search := "   " }.search) = Outcome.resolved [] ∨
      (fun _ => Outcome.rejected : String → Outcome (List GeoPoint))
        (jsTrim { sampleResolving with search := "   " }.search) = Outcome.rejected) ∧
    (runSearch (fun _ => Outcome.rejected) { sampleResolving with search := "   " }).1 =
      { sampleResolving with search := "   " } ∧
    (runSearch (fun _ => Outcome.rejected) { sampleResolving with search := "   " }).2 = [] :=
  ⟨Or.inl (by decide),
    (runSearch_failure_unchanged (fun _ => Outcome.rejected)
      { sampleResolving with search := "   " } sampleResolving (Or.inl (by decide))).1,
    (runSearch_failure_unchanged (fun _ => Outcome.rejected)
      { sampleResolving with search := "   " } sampleResolving (Or.inl (by decide))).2.1⟩

/-- C19: when address resolution is in progress (`loadingAddr` is true) or no
point is selected, a press on the confirm button is a no-op: nothing is handed to
`onPick`, `onClose` is not called and the cells are unchanged; and `confirm`
itself returns at once when no point is selected. -/
theorem pressConfirm_noop (m : MapPicker) (h : m.loadingAddr = true ∨ m.coord = none) :
    pressConfirm m = { cells := m, picked := none, closed := false } ∧
    (pressConfirm m).picked = none ∧
    (pressConfirm m).closed = false ∧
    (pressConfirm m).cells = m ∧
    (m.coord = none → confirm m = { cells := m, picked := none, closed := false }) := by
  have hp : pressConfirm m = { cells := m, picked := none, closed := false } := by
    unfold pressConfirm
    rcases h with h | h
    · simp [h]
    · simp [h]
  rw [hp]
  refine ⟨rfl, rfl, rfl, rfl, ?_⟩
  intro hc
  simp [confirm, hc]

theorem pressConfirm_noop_witness :
    (sampleResolving.loadingAddr = true ∨ sampleResolving.coord = none) ∧
    pressConfirm sampleResolving =
      { cells := sampleResolving, picked := none, closed := false } :=
  ⟨Or.inl (by decide), (pressConfirm_noop sampleResolving (Or.inl (by decide))).1⟩

/-- C20 (the code at the failing input): with the point `A` resolved to a label
and the point `B` then tapped, an error of the provider ends the resolution with
the label of `A` still held for `B`, not the not-found text; an answer without a
match does set the not-found text. In general an error leaves the address cell
as it was. -/
theorem reverse_error_keeps_previous_label :
    sampleResolving.coord = some samplePointB ∧
    (reverseFinish Outcome.rejected sampleResolving).coord = some samplePointB ∧
    (reverseFinish Outcome.rejected sampleResolving).loadingAddr = false ∧
    (reverseFinish Outcome.rejected sampleResolving).address =
      "Россия, Санкт-Петербург, Невский проспект, 1" ∧
    (reverseFinish Outcome.rejected sampleResolving).address =
      (reverseFinish (Outcome.resolved [sampleGeoAddress])
        (onMapPress samplePointA initialMapPicker).1).address ∧
    (reverseFinish Outcome.rejected sampleResolving).address ≠ "Адрес не найден" ∧
    (reverseFinish (Outcome.resolved []) sampleResolving).address = "Адрес не найден" ∧
    (∀ m : MapPicker, (reverseFinish Outcome.rejected m).address = m.address) := by
  refine ⟨rfl, rfl, by decide, by decide, by decide, by decide, by decide, ?_⟩
  intro m
  rfl

/-! ### The roster filter -/

theorem jsIncludes_iff (hay needle : String) :
    jsIncludes hay needle = true ↔ needle.data <:+: hay.data := by
  unfold jsIncludes
  rw [List.any_eq_true, List.infix_iff_prefix_suffix]
  constructor
  · rintro ⟨t, ht, hp⟩
    exact ⟨t, List.isPrefixOf_iff_prefix.mp hp, (List.mem_tails _ _).mp ht⟩
  · rintro ⟨t, hp, hs⟩
    exact ⟨t, (List.mem_tails _ _).mpr hs, List.isPrefixOf_iff_prefix.mpr hp⟩

theorem rowMatches_iff (toLowerCase : String → String) (e : Employee) (q : String) :
    (jsIncludes (toLowerCase e.name) (toLowerCase (jsTrim q)) ||
      (match e.dept with
       | some d => jsIncludes (toLowerCase d) (toLowerCase (jsTrim q))
       | none => false)) = true ↔ matchesFilterSpec toLowerCase e q := by
  unfold matchesFilterSpec containsIgnoringCase
  rw [Bool.or_eq_true, jsIncludes_iff]
  constructor
  · rintro (h | h)
    · exact Or.inl h
    · right
      cases hd : e.dept with
      | none => rw [hd] at h; simp at h
      | some d =>
        rw [hd] at h
        exact ⟨d, rfl, (jsIncludes_iff _ _).mp h⟩
  · rintro (h | ⟨d, hd, h⟩)
    · exact Or.inl h
    · right
      rw [hd]
      exact (jsIncludes_iff _ _).mpr h

theorem matchesFilterSpec_of_empty (toLowerCase : String → String) (e : Employee) (q : String)
    (hs : toLowerCase (jsTrim q) = "") : matchesFilterSpec toLowerCase e q := by
  left
  unfold containsIgnoringCase
  rw [hs]
  exact List.nil_infix

theorem rosterFilter_eq_filter (toLowerCase : String → String) (roster : List Employee)
    (q : String) :
    rosterFilter toLowerCase roster q =
      roster.filter (fun e => decide (matchesFilterSpec toLowerCase e q)) := by
  unfold rosterFilter
  by_cases hs : toLowerCase (jsTrim q) = ""
  · simp only [hs, if_true]
    symm
    rw [List.filter_eq_self]
    intro e _
    exact decide_eq_true (matchesFilterSpec_of_empty toLowerCase e q hs)
  · simp only [hs, if_false]
    apply List.filter_congr
    intro e _
    rw [Bool.eq_iff_iff, rowMatches_iff, decide_eq_true_iff]

/-- C14: for every filter text the roster shown is the fixed roster filtered, in
roster order, to the employees whose name or whose department contains the
trimmed filter as a case-insensitive substring; an empty or blank filter shows
the whole roster; and an employee of any roster whose department is `"Office"` is
returned for the filter `"office"`, whatever the name. -/
theorem data_filters_roster (toLowerCase : String → String) (q : String)
    (h0 : toLowerCase "" = "") (h1 : toLowerCase "Office" = "office")
    (h2 : toLowerCase "office" = "office") :
    data toLowerCase q =
      MOCK_EMPLOYEES.filter (fun e => decide (matchesFilterSpec toLowerCase e q)) ∧
    (∀ e : Employee,
      e ∈ data toLowerCase q ↔ e ∈ MOCK_EMPLOYEES ∧ matchesFilterSpec toLowerCase e q) ∧
    (data toLowerCase q).Sublist MOCK_EMPLOYEES ∧
    (jsTrim q = "" → data toLowerCase q = MOCK_EMPLOYEES) ∧
    (∀ (roster : List Employee) (e : Employee), e ∈ roster → e.dept = some "Office" →
      e ∈ rosterFilter toLowerCase roster "office") := by
  have heq := rosterFilter_eq_filter toLowerCase MOCK_EMPLOYEES q
  refine ⟨heq, ?_, ?_, ?_, ?_⟩
  · intro e
    rw [data, heq, List.mem_filter, decide_eq_true_iff]
  · rw [data, heq]
    exact List.filter_sublist _
  · intro hq
    simp [data, rosterFilter, hq, h0]
  · intro roster e he hd
    rw [rosterFilter_eq_filter, List.mem_filter, decide_eq_true_iff]
    refine ⟨he, Or.inr ⟨"Office", hd, ?_⟩⟩
    unfold containsIgnoringCase
    have ht : jsTrim "office" = "office" := by decide
    rw [ht, h1, h2]

theorem data_filters_roster_witness :
    sampleLower "" = "" ∧ sampleLower "Office" = "office" ∧ sampleLower "office" = "office" ∧
    data sampleLower " офис " =
      MOCK_EMPLOYEES.filter (fun e => decide (matchesFilterSpec sampleLower e " офис ")) ∧
    data sampleLower " офис " =
      [{ id := "e4", name := "Алиев Камиль", dept := some "Офис" }] :=
  ⟨by decide, by decide, by decide,
    (data_filters_roster sampleLower " офис " (by decide) (by decide) (by decide)).1,
    by decide⟩

/-! ### The selection map -/

theorem mapHas_iff (m : IdMap) (k : String) : mapHas m k = true ↔ k ∈ mapKeys m := by
  unfold mapHas mapKeys
  rw [List.any_eq_true, List.mem_map]
  constructor
  · rintro ⟨p, hp, hk⟩
    exact ⟨p, hp, by simpa using hk⟩
  · rintro ⟨p, hp, hk⟩
    exact ⟨p, hp, by simpa using hk⟩

theorem mapKeys_replace (m : IdMap) (k : String) (v : Employee) :
    mapKeys (m.map (fun p => if p.1 == k then (k, v) else p)) = mapKeys m := by
  unfold mapKeys
  rw [List.map_map]
  apply List.map_congr_left
  intro p _
  by_cases h : p.1 = k
  · simp [h]
  · simp [h]

theorem mapKeys_mapSet (m : IdMap) (k : String) (v : Employee) :
    mapKeys (mapSet m k v) = if mapHas m k then mapKeys m else mapKeys m ++ [k] := by
  unfold mapSet
  split_ifs with h
  · exact mapKeys_replace m k v
  · simp [mapKeys]

theorem mapKeys_mapDelete (m : IdMap) (k : String) :
    mapKeys (mapDelete m k) = (mapKeys m).filter (fun x => !(x == k)) := by
  unfold mapDelete mapKeys
  rw [List.filter_map]
  rfl

theorem mapHas_mapDelete (m : IdMap) (k x : String) :
    mapHas (mapDelete m k) x = (mapHas m x && !(x == k)) := by
  rw [Bool.eq_iff_iff, Bool.and_eq_true, mapHas_iff, mapHas_iff, mapKeys_mapDelete,
    List.mem_filter]

theorem mapHas_mapSet (m : IdMap) (k x : String) (v : Employee) :
    mapHas (mapSet m k v) x = (mapHas m x || x == k) := by
  rw [Bool.eq_iff_iff, Bool.or_eq_true, mapHas_iff, mapHas_iff, mapKeys_mapSet]
  split_ifs with h
  · constructor
    · exact Or.inl
    · rintro (h1 | h1)
      · exact h1
      · have hx : x = k := by simpa using h1
        rw [hx]
        exact (mapHas_iff m k).mp h
  · simp [List.mem_append]

theorem mapKeys_nodup_mapSet (m : IdMap) (k : String) (v : Employee)
    (h : (mapKeys m).Nodup) : (mapKeys (mapSet m k v)).Nodup := by
  rw [mapKeys_mapSet]
  split_ifs with hk
  · exact h
  · rw [List.nodup_append]
    refine ⟨h, List.nodup_singleton k, ?_⟩
    intro a ha hb
    have hak : a = k := by simpa using hb
    rw [hak] at ha
    exact hk ((mapHas_iff m k).mpr ha)

theorem mapKeys_nodup_mapDelete (m : IdMap) (k : String)
    (h : (mapKeys m).Nodup) : (mapKeys (mapDelete m k)).Nodup := by
  rw [mapKeys_mapDelete]
  exact h.filter _

theorem foldl_mapSet_nodup (pairs : List (String × Employee)) :
    ∀ m : IdMap, (mapKeys m).Nodup →
      (mapKeys (pairs.foldl (fun m p => mapSet m p.1 p.2) m)).Nodup := by
  induction pairs with
  | nil => intro m h; exact h
  | cons p ps ih =>
    intro m h
    exact ih _ (mapKeys_nodup_mapSet m p.1 p.2 h)

theorem foldl_mapSet_has (pairs : List (String × Employee)) (x : String) :
    ∀ m : IdMap,
      mapHas (pairs.foldl (fun m p => mapSet m p.1 p.2) m) x =
        (mapHas m x || pairs.any (fun p => p.1 == x)) := by
  induction pairs with
  | nil => intro m; simp
  | cons p ps ih =>
    intro m
    rw [List.foldl_cons, ih, mapHas_mapSet, List.any_cons, Bool.or_assoc]
    congr 2
    by_cases h : x = p.1
    · simp [h]
    · have h2 : ¬ p.1 = x := fun e => h e.symm
      simp [h, h2]

theorem seedSelection_nodup (initial : List Employee) :
    (mapKeys (seedSelection initial)).Nodup :=
  foldl_mapSet_nodup _ [] List.nodup_nil

theorem seedSelection_has (initial : List Employee) (x : String) :
    mapHas (seedSelection initial) x = true ↔ x ∈ initial.map (fun e => e.id) := by
  unfold seedSelection mapOfPairs
  rw [foldl_mapSet_has]
  have h0 : mapHas [] x = false := rfl
  rw [h0, Bool.false_or, List.any_eq_true, List.mem_map]
  constructor
  · rintro ⟨p, hp, hx⟩
    obtain ⟨e, he, hpe⟩ := List.mem_map.mp hp
    refine ⟨e, he, ?_⟩
    have : p.1 = x := by simpa using hx
    rw [← this, ← hpe]
  · rintro ⟨e, he, hx⟩
    exact ⟨(e.id, e), List.mem_map.mpr ⟨e, he, rfl⟩, by simpa using hx⟩

theorem toggle_has_self (e : Employee) (p : PickerState) :
    mapHas (toggle e p).selected e.id = !mapHas p.selected e.id := by
  unfold toggle
  by_cases h : mapHas p.selected e.id = true
  · simp [h, mapHas_mapDelete]
  · simp [h, mapHas_mapSet]

theorem toggle_has_other (e : Employee) (p : PickerState) (k : String) (hk : k ≠ e.id) :
    mapHas (toggle e p).selected k = mapHas p.selected k := by
  unfold toggle
  by_cases h : mapHas p.selected e.id = true
  · simp [h, mapHas_mapDelete, hk]
  · simp [h, mapHas_mapSet, hk]

theorem toggle_nodup (e : Employee) (p : PickerState) (h : (mapKeys p.selected).Nodup) :
    (mapKeys (toggle e p).selected).Nodup := by
  unfold toggle
  by_cases hh : mapHas p.selected e.id = true
  · simp only [hh, if_true]
    exact mapKeys_nodup_mapDelete _ _ h
  · simp only [hh]
    exact mapKeys_nodup_mapSet _ _ _ h

theorem foldl_toggle_nodup (toggles : List Employee) :
    ∀ p : PickerState, (mapKeys p.selected).Nodup →
      (mapKeys (toggles.foldl (fun p e => toggle e p) p).selected).Nodup := by
  induction toggles with
  | nil => intro p h; exact h
  | cons e es ih =>
    intro p h
    exact ih _ (toggle_nodup e p h)

theorem foldl_mapSet_append (pairs : List (String × Employee)) :
    ∀ m : IdMap, (∀ p ∈ pairs, mapHas m p.1 = false) → (pairs.map Prod.fst).Nodup →
      pairs.foldl (fun m p => mapSet m p.1 p.2) m = m ++ pairs := by
  induction pairs with
  | nil => intro m _ _; simp
  | cons p ps ih =>
    intro m hm hn
    have hp : mapHas m p.1 = false := hm p (List.mem_cons_self _ _)
    have hset : mapSet m p.1 p.2 = m ++ [p] := by simp [mapSet, hp]
    rw [List.foldl_cons, hset, ih]
    · simp
    · intro r hr
      have hr1 : mapHas m r.1 = false := hm r (List.mem_cons_of_mem _ hr)
      have hne : r.1 ≠ p.1 := by
        intro heq
        rw [List.map_cons, List.nodup_cons] at hn
        exact hn.1 (heq ▸ List.mem_map_of_mem Prod.fst hr)
      rw [← hset, mapHas_mapSet, hr1]
      simp [hne]
    · rw [List.map_cons, List.nodup_cons] at hn
      exact hn.2

theorem seedSelection_of_nodup (initial : List Employee)
    (h : (initial.map (fun e => e.id)).Nodup) :
    seedSelection initial = initial.map (fun e => (e.id, e)) := by
  unfold seedSelection mapOfPairs
  rw [foldl_mapSet_append]
  · simp
  · intro p _; rfl
  · rw [List.map_map]
    exact h

theorem foldl_toggle_append (es : List Employee) :
    ∀ p : PickerState, (∀ e ∈ es, mapHas p.selected e.id = false) →
      (es.map (fun e => e.id)).Nodup →
      (es.foldl (fun p e => toggle e p) p).selected =
        p.selected ++ es.map (fun e => (e.id, e)) := by
  induction es with
  | nil => intro p _ _; simp
  | cons e es ih =>
    intro p hp hn
    have he : mapHas p.selected e.id = false := hp e (List.mem_cons_self _ _)
    have ht : (toggle e p).selected = p.selected ++ [(e.id, e)] := by
      simp [toggle, he, mapSet]
    rw [List.map_cons, List.nodup_cons] at hn
    rw [List.foldl_cons, ih, ht]
    · simp
    · intro r hr
      have hr1 : mapHas p.selected r.id = false := hp r (List.mem_cons_of_mem _ hr)
      have hne : r.id ≠ e.id := by
        intro heq
        exact hn.1 (heq ▸ List.mem_map_of_mem (fun e => e.id) hr)
      rw [toggle_has_other e p r.id hne]
      exact hr1
    · exact hn.2

/-- C15 (as stated, refuted): in a session opened with an empty selection, after
the second roster employee and then the first are toggled, the list handed to
`onDone` is second, first (the order of the toggles), while roster order is
first, second. -/
theorem doneList_toggle_order_counterexample :
    doneList
        (toggle { id := "e1", name := "Иванов Иван", dept := some "Экипаж" }
          (toggle { id := "e2", name := "Петров Пётр", dept := some "Техслужба" }
            (seedEffect true [] initialPicker))) =
      [{ id := "e2", name := "Петров Пётр", dept := some "Техслужба" },
       { id := "e1", name := "Иванов Иван", dept := some "Экипаж" }] ∧
    rosterOrderSpec
        (toggle { id := "e1", name := "Иванов Иван", dept := some "Экипаж" }
          (toggle { id := "e2", name := "Петров Пётр", dept := some "Техслужба" }
            (seedEffect true [] initialPicker))) =
      [{ id := "e1", name := "Иванов Иван", dept := some "Экипаж" },
       { id := "e2", name := "Петров Пётр", dept := some "Техслужба" }] ∧
    doneList
        (toggle { id := "e1", name := "Иванов Иван", dept := some "Экипаж" }
          (toggle { id := "e2", name := "Петров Пётр", dept := some "Техслужба" }
            (seedEffect true [] initialPicker))) ≠
      rosterOrderSpec
        (toggle { id := "e1", name := "Иванов Иван", dept := some "Экипаж" }
          (toggle { id := "e2", name := "Петров Пётр", dept := some "Техслужба" }
            (seedEffect true [] initialPicker))) := by
  refine ⟨by decide, by decide, by decide⟩

/-- C15 (amended): the list `done()` hands to `onDone` lists the selected
employees in the order in which they entered the working selection. A toggle of
an employee not selected puts it last; a toggle of a selected employee removes
its entry and keeps the order of the others; a session seeded with an initial
selection of distinct ids starts with that selection in its own order; and
toggling employees of distinct ids in a session seeded with the empty selection
yields them in the order of the toggles. -/
theorem doneList_insertion_order (e : Employee) (p : PickerState)
    (initial es : List Employee) :
    doneList (toggle e p) =
      (if mapHas p.selected e.id then mapValues (mapDelete p.selected e.id)
       else doneList p ++ [e]) ∧
    mapValues (mapDelete p.selected e.id) =
      (p.selected.filter (fun kv => !(kv.1 == e.id))).map Prod.snd ∧
    ((initial.map (fun e => e.id)).Nodup → doneList (seedEffect true initial p) = initial) ∧
    ((es.map (fun e => e.id)).Nodup →
      doneList (es.foldl (fun p e => toggle e p) (seedEffect true [] p)) = es) := by
  refine ⟨?_, rfl, ?_, ?_⟩
  · unfold doneList toggle
    by_cases h : mapHas p.selected e.id = true
    · simp [h]
    · simp [h, mapSet, mapValues]
  · intro hn
    simp [doneList, seedEffect, seedSelection_of_nodup initial hn, mapValues,
      Function.comp_def]
  · intro hn
    rw [doneList, foldl_toggle_append es (seedEffect true [] p) (fun _ _ => rfl) hn]
    simp [seedEffect, seedSelection, mapOfPairs, mapValues, Function.comp_def]

/-- C16: `toggle(e)` flips the membership of `e.id` (it adds the entry of `e` at
the end when the id is absent and removes the entry when it is present) and
leaves the membership of every other id unchanged; toggling the same employee
twice restores the membership of every id; and the selection never holds two
entries with the same id: that holds of the initial selection and of every seeded
one, and is kept by every toggle. -/
theorem toggle_flips_membership (e : Employee) (p : PickerState) (k : String)
    (initial toggles : List Employee) (visible : Bool) :
    mapHas (toggle e p).selected e.id = !mapHas p.selected e.id ∧
    (mapHas p.selected e.id = false → (toggle e p).selected = p.selected ++ [(e.id, e)]) ∧
    (mapHas p.selected e.id = true →
      (toggle e p).selected = p.selected.filter (fun kv => !(kv.1 == e.id))) ∧
    (k ≠ e.id → mapHas (toggle e p).selected k = mapHas p.selected k) ∧
    mapHas (toggle e (toggle e p)).selected k = mapHas p.selected k ∧
    (mapKeys initialPicker.selected).Nodup ∧
    ((mapKeys p.selected).Nodup → (mapKeys (seedEffect visible initial p).selected).Nodup) ∧
    ((mapKeys p.selected).Nodup → (mapKeys (toggle e p).selected).Nodup) ∧
    (mapKeys (toggles.foldl (fun p e => toggle e p)
      (seedEffect true initial p)).selected).Nodup := by
  refine ⟨toggle_has_self e p, ?_, ?_, toggle_has_other e p k, ?_, List.nodup_nil, ?_,
    toggle_nodup e p, ?_⟩
  · intro h
    simp [toggle, h, mapSet]
  · intro h
    simp [toggle, h, mapDelete]
  · by_cases hk : k = e.id
    · rw [hk, toggle_has_self, toggle_has_self, Bool.not_not]
    · rw [toggle_has_other e _ k hk, toggle_has_other e p k hk]
  · intro h
    unfold seedEffect
    split_ifs
    · exact seedSelection_nodup initial
    · exact h
  · exact foldl_toggle_nodup toggles _ (seedSelection_nodup initial)

theorem foldl_pressRow_screen (toggles : List Employee) :
    ∀ w : WithPicker, (toggles.foldl (fun w e => pressRow e w) w).screen = w.screen := by
  induction toggles with
  | nil => intro w; rfl
  | cons e es ih => intro w; rw [List.foldl_cons, ih]; rfl

theorem openEmp_eq (s : Screen) : openEmp s = { s with empModal := true } :=
  commitRender_same_length s { s with empModal := true } rfl

theorem closeEmp_eq (s : Screen) :
    commitRender s (onCloseEmp s) = { s with empModal := false } :=
  commitRender_same_length s (onCloseEmp s) rfl

theorem sessionThenClose_screen (w : WithPicker) (toggles : List Employee) :
    (sessionThenClose w toggles).screen = { w.screen with empModal := false } := by
  unfold sessionThenClose closePicker syncPicker
  rw [foldl_pressRow_screen]
  simp only [openPicker, syncPicker]
  rw [closeEmp_eq, openEmp_eq]

/-- C17: when a picker session opened on the caller's selection `S` is closed by
the backdrop after any sequence of toggles, the caller's selection is still `S`
(as are the other cells of the draft), and the session opened next starts from
the working copy of `S`: its members are exactly the ids of `S`, the same copy
the closed session had started from, with the filter text cleared. -/
theorem closePicker_discards_toggles (w : WithPicker) (toggles : List Employee) :
    (sessionThenClose w toggles).screen.employees = w.screen.employees ∧
    (sessionThenClose w toggles).screen = { w.screen with empModal := false } ∧
    (openPicker (sessionThenClose w toggles)).screen.employees = w.screen.employees ∧
    (openPicker (sessionThenClose w toggles)).picker =
      { q := "", selected := seedSelection w.screen.employees } ∧
    (∀ k : String,
      mapHas (openPicker (sessionThenClose w toggles)).picker.selected k = true ↔
        k ∈ w.screen.employees.map (fun e => e.id)) ∧
    (w.screen.empModal = false →
      (openPicker (sessionThenClose w toggles)).picker = (openPicker w).picker) := by
  have hs := sessionThenClose_screen w toggles
  have hp : (openPicker (sessionThenClose w toggles)).picker =
      { q := "", selected := seedSelection w.screen.employees } := by
    simp only [openPicker, syncPicker, hs, openEmp_eq]
    simp [pickerRender, seedEffect]
  refine ⟨by rw [hs], hs, ?_, hp, ?_, ?_⟩
  · simp only [openPicker, syncPicker, hs, openEmp_eq]
  · intro k
    rw [hp]
    exact seedSelection_has w.screen.employees k
  · intro hclosed
    rw [hp]
    simp only [openPicker, syncPicker, openEmp_eq]
    simp [pickerRender, seedEffect, hclosed]

/-! ### The map picker: late answers, the open effect, close and tap -/

theorem reverseFinish_resolved (r : List GeoAddress) (m : MapPicker) :
    reverseFinish (Outcome.resolved r) m =
      { m with address := answerLine r, loadingAddr := false } := rfl

/-- C21 (as stated, refuted): the point `A` is tapped, then the point `B` before
the answer for `A` came; the answer for `B` sets the label of `B`; the late answer
to the superseded request for `A` is then applied all the same: the label becomes
that of `A` while the selected point is `B`. -/
theorem reverse_superseded_counterexample :
    sampleSuperseded.coord = some samplePointB ∧
    sampleSuperseded.address = "Россия, Санкт-Петербург, Литейный проспект, 20" ∧
    (reverseFinish (Outcome.resolved [sampleGeoAddress]) sampleSuperseded).coord =
      some samplePointB ∧
    (reverseFinish (Outcome.resolved [sampleGeoAddress]) sampleSuperseded).address =
      "Россия, Санкт-Петербург, Невский проспект, 1" ∧
    reverseFinish (Outcome.resolved [sampleGeoAddress]) sampleSuperseded ≠ sampleSuperseded := by
  refine ⟨rfl, by decide, rfl, by decide, ?_⟩
  intro h
  have ha := congrArg MapPicker.address h
  revert ha
  decide

/-- C21 (amended): in a map session that is still open, a reverse-resolve
response that carries an answer is applied to the address label when it arrives,
whether or not it answers the most recent request: the label becomes the line of
that answer (the not-found text when it has no entry) and the resolving flag is
cleared, the selected point being left as it is. After two taps the label is
therefore that of the answer that came last, for either order of the two answers;
and the same holds of the answer to the resolution of the initial place, which
the open effect awaits. -/
theorem reverse_response_always_applied (sess : MapSession) (a b initial : Coords)
    (ra rb : List GeoAddress) (run : OpenRun)
    (hopen : sess.visible = true) (hrun : run.cancelled = false) :
    (reverseAnswer (Outcome.resolved ra) sess).cells.address = answerLine ra ∧
    (reverseAnswer (Outcome.resolved ra) sess).cells.loadingAddr = false ∧
    (reverseAnswer (Outcome.resolved ra) sess).cells.coord = sess.cells.coord ∧
    (reverseAnswer (Outcome.resolved ra) sess).visible = true ∧
    (tapAt b (tapAt a sess)).cells.coord = some b ∧
    (reverseAnswer (Outcome.resolved ra)
      (reverseAnswer (Outcome.resolved rb) (tapAt b (tapAt a sess)))).cells.address =
      answerLine ra ∧
    (reverseAnswer (Outcome.resolved ra)
      (reverseAnswer (Outcome.resolved rb) (tapAt b (tapAt a sess)))).cells.coord = some b ∧
    (reverseAnswer (Outcome.resolved rb)
      (reverseAnswer (Outcome.resolved ra) (tapAt b (tapAt a sess)))).cells.address =
      answerLine rb ∧
    (openAfterReverse run sess.visible initial (Outcome.resolved ra)
      (tapAt b sess).cells).cells.address = answerLine ra ∧
    (openAfterReverse run sess.visible initial (Outcome.resolved ra)
      (tapAt b sess).cells).cells.loadingAddr = false ∧
    (openAfterReverse run sess.visible initial (Outcome.resolved ra)
      (tapAt b sess).cells).cells.coord = some b := by
  have ht : ∀ (c : Coords) (t : MapSession), t.visible = true →
      tapAt c t = { t with cells := (onMapPress c t.cells).1 } := by
    intro c t h
    simp [tapAt, h]
  have h1 : (tapAt a sess).visible = true := by rw [ht a sess hopen]; exact hopen
  have hb : ∀ t : MapSession, t.visible = true → (tapAt b t).cells.coord = some b := by
    intro t h
    rw [ht b t h]
    rfl
  refine ⟨rfl, rfl, rfl, hopen, hb _ h1, rfl, hb _ h1, rfl, ?_, ?_, ?_⟩
  · simp [openAfterReverse, hrun, reverseFinish_resolved]
  · simp [openAfterReverse, hrun, reverseFinish_resolved]
  · simp only [openAfterReverse, hrun, reverseFinish_resolved]
    exact hb sess hopen

theorem reverse_response_always_applied_witness :
    ({ visible := true, cells := initialMapPicker } : MapSession).visible = true ∧
    (newRun initialMapPicker).cancelled = false ∧
    (reverseAnswer (Outcome.resolved [sampleGeoAddress])
      (reverseAnswer (Outcome.resolved [sampleGeoAddressB])
        (tapAt samplePointB
          (tapAt samplePointA { visible := true, cells := initialMapPicker })))).cells.address =
      answerLine [sampleGeoAddress] ∧
    (reverseAnswer (Outcome.resolved [sampleGeoAddress])
      (reverseAnswer (Outcome.resolved [sampleGeoAddressB])
        (tapAt samplePointB
          (tapAt samplePointA { visible := true, cells := initialMapPicker })))).cells.coord =
      some samplePointB :=
  ⟨rfl, rfl,
    (reverse_response_always_applied { visible := true, cells := initialMapPicker }
      samplePointA samplePointB samplePointA [sampleGeoAddress] [sampleGeoAddressB]
      (newRun initialMapPicker) rfl rfl).2.2.2.2.2.1,
    (reverse_response_always_applied { visible := true, cells := initialMapPicker }
      samplePointA samplePointB samplePointA [sampleGeoAddress] [sampleGeoAddressB]
      (newRun initialMapPicker) rfl rfl).2.2.2.2.2.2.1⟩

/-- C22 (the code at the failing input): a session is opened without an initial
place and closed before the permission request is answered, so the cleanup has
set `cancelled` and the map is no longer mounted. A late answer `denied` still
runs the third branch: the centred-once flag goes from false to true (the call
that moves the map does nothing, the map being unmounted); and had a later
session meanwhile opened on the place `A`, its selected point would be cleared
and its map moved to the world view. The same holds when the request fails. A
late position, by contrast, is dropped by the test of `cancelled`. -/
theorem open_late_denied_mutates :
    sampleClosedRun.cancelled = true ∧
    sampleClosedEarly.centeredOnce = false ∧
    (openAfterPermission sampleClosedRun false (Outcome.resolved PermissionStatus.denied)
      sampleClosedEarly).cells.centeredOnce = true ∧
    (openAfterPermission sampleClosedRun false (Outcome.resolved PermissionStatus.denied)
      sampleClosedEarly).cells ≠ sampleClosedEarly ∧
    (openAfterPermission sampleClosedRun false Outcome.rejected sampleClosedEarly).cells ≠
      sampleClosedEarly ∧
    (openAfterPermission sampleClosedRun false (Outcome.resolved PermissionStatus.denied)
      sampleClosedEarly).animateTo = none ∧
    (openSession (some samplePointA) sampleClosedEarly).cells.coord = some samplePointA ∧
    (openAfterPermission sampleClosedRun true (Outcome.resolved PermissionStatus.denied)
      (openSession (some samplePointA) sampleClosedEarly).cells).cells.coord = none ∧
    (openAfterPermission sampleClosedRun true (Outcome.resolved PermissionStatus.denied)
      (openSession (some samplePointA) sampleClosedEarly).cells).animateTo =
      some (toRegion 30 0 40) ∧
    (openAfterPosition sampleClosedRun false (Outcome.resolved ⟨59.93, 30.33⟩)
      sampleClosedEarly).cells = sampleClosedEarly := by
  have hne : ∀ m : MapPicker, m.centeredOnce = true → m ≠ sampleClosedEarly := by
    intro m hm h
    rw [h] at hm
    revert hm
    decide
  exact ⟨rfl, rfl, rfl, hne _ rfl, hne _ rfl, rfl, rfl, rfl, rfl, rfl⟩

theorem openSession_none_requests (m : MapPicker) :
    (openSession none m).requests = [Request.permissions] ∧
    (openSession none m).cells = { m with centeredOnce := false, search := "" } := by
  simp [openSession, openEffectStart, resetCenteredEffect]

theorem openWithoutInitial_fallback (status : Outcome PermissionStatus) (pos : Outcome GeoPoint)
    (m : MapPicker)
    (h : status ≠ Outcome.resolved PermissionStatus.granted ∨ pos = Outcome.rejected) :
    openWithoutInitial status pos m =
      openFallback (newRun (resetCenteredEffect true m)) true (openSession none m).cells := by
  unfold openWithoutInitial
  simp only [(openSession_none_requests m).1]
  cases status with
  | rejected => rfl
  | resolved st =>
    cases st with
    | granted =>
      rcases h with h | h
      · exact absurd rfl h
      · rw [h]; rfl
    | denied => rfl
    | undetermined => rfl

theorem openWithoutInitial_granted (p : GeoPoint) (m : MapPicker) :
    openWithoutInitial (Outcome.resolved PermissionStatus.granted) (Outcome.resolved p) m =
      openAfterPosition (newRun (resetCenteredEffect true m)) true (Outcome.resolved p)
        (openSession none m).cells := by
  unfold openWithoutInitial
  simp only [(openSession_none_requests m).1]
  rfl

/-- C23: a session opened without an initial place starts by asking for the
location permission, whatever the cells held before (the centred-once flag is
reset on opening). The region the map is then moved to is the device position at
span 0.2 when the permission is granted and a position is obtained; otherwise it
is the last-used region held when the session opened, if there is one, and else
the world view of latitude 30, longitude 0 and span 40. In all three cases the
selected point is unset afterwards and the centred-once flag is set. -/
theorem openWithoutInitial_viewport (m : MapPicker) :
    (openSession none m).requests = [Request.permissions] ∧
    (∀ p : GeoPoint,
      (openWithoutInitial (Outcome.resolved PermissionStatus.granted)
        (Outcome.resolved p) m).animateTo =
        some { latitude := p.latitude, longitude := p.longitude,
               latitudeDelta := 0.2, longitudeDelta := 0.2 }) ∧
    (∀ (status : Outcome PermissionStatus) (pos : Outcome GeoPoint) (reg : Region),
      status ≠ Outcome.resolved PermissionStatus.granted ∨ pos = Outcome.rejected →
      m.lastRegion = some reg →
      (openWithoutInitial status pos m).animateTo = some reg) ∧
    (∀ (status : Outcome PermissionStatus) (pos : Outcome GeoPoint),
      status ≠ Outcome.resolved PermissionStatus.granted ∨ pos = Outcome.rejected →
      m.lastRegion = none →
      (openWithoutInitial status pos m).animateTo =
        some { latitude := 30, longitude := 0, latitudeDelta := 40, longitudeDelta := 40 }) ∧
    (∀ (status : Outcome PermissionStatus) (pos : Outcome GeoPoint),
      (openWithoutInitial status pos m).cells.coord = none ∧
      (openWithoutInitial status pos m).cells.centeredOnce = true ∧
      (openWithoutInitial status pos m).requests = []) := by
  refine ⟨(openSession_none_requests m).1, ?_, ?_, ?_, ?_⟩
  · intro p
    rw [openWithoutInitial_granted]
    rfl
  · intro status pos reg h hreg
    rw [openWithoutInitial_fallback status pos m h]
    have hl : (newRun (resetCenteredEffect true m)).lastRegion = some reg := hreg
    simp [openFallback, hl, animateIfMounted]
  · intro status pos h hreg
    rw [openWithoutInitial_fallback status pos m h]
    have hl : (newRun (resetCenteredEffect true m)).lastRegion = none := hreg
    simp [openFallback, hl, toRegion, animateIfMounted]
  · intro status pos
    by_cases h : status ≠ Outcome.resolved PermissionStatus.granted ∨ pos = Outcome.rejected
    · rw [openWithoutInitial_fallback status pos m h]
      exact ⟨rfl, rfl, rfl⟩
    · push_neg at h
      obtain ⟨hs, hp⟩ := h
      cases pos with
      | rejected => exact absurd rfl hp
      | resolved p =>
        rw [hs, openWithoutInitial_granted]
        exact ⟨rfl, rfl, rfl⟩

/-- C24 (the code at the failing input): `confirm` on the session in which the
point `A` was resolved leaves the selected point and the address label in the
cells, where `handleClose` clears them. The session opened next without an
initial place therefore starts, until its permission request is answered, with
`A` selected and the confirm button enabled, and a press on it hands `A` with its
label to `onPick`. -/
theorem confirm_keeps_point_for_next_session :
    (confirm sampleResolved).cells.coord = some samplePointA ∧
    (confirm sampleResolved).cells.address =
      "Россия, Санкт-Петербург, Невский проспект, 1" ∧
    (handleClose sampleResolved).cells.coord = none ∧
    (handleClose sampleResolved).cells.address = "" ∧
    (openSession none (confirm sampleResolved).cells).requests = [Request.permissions] ∧
    (openSession none (confirm sampleResolved).cells).cells.coord = some samplePointA ∧
    (openSession none (confirm sampleResolved).cells).cells.loadingAddr = false ∧
    (pressConfirm (openSession none (confirm sampleResolved).cells).cells).picked =
      some { coords := samplePointA,
             address := "Россия, Санкт-Петербург, Невский проспект, 1" } := by
  refine ⟨rfl, by decide, rfl, rfl, rfl, rfl, rfl, ?_⟩
  have ha : (openSession none (confirm sampleResolved).cells).cells.address =
      "Россия, Санкт-Петербург, Невский проспект, 1" := by decide
  have hp : (pressConfirm (openSession none (confirm sampleResolved).cells).cells).picked =
      some { coords := samplePointA,
             address := (openSession none (confirm sampleResolved).cells).cells.address } := rfl
  rw [hp, ha]

/-- C25: `handleClose` sets the selected point to unset, the address label to
empty and the search text to empty, hands nothing to `onPick`, calls `onClose`,
and leaves the last-used region (and the other cells) as they were. -/
theorem handleClose_clears_session (m : MapPicker) :
    (handleClose m).cells.coord = none ∧
    (handleClose m).cells.address = "" ∧
    (handleClose m).cells.search = "" ∧
    (handleClose m).picked = none ∧
    (handleClose m).closed = true ∧
    (handleClose m).cells.lastRegion = m.lastRegion ∧
    (handleClose m).cells.loadingAddr = m.loadingAddr ∧
    (handleClose m).cells.centeredOnce = m.centeredOnce :=
  ⟨rfl, rfl, rfl, rfl, rfl, rfl, rfl, rfl⟩

/-- C26: a map tap or a marker drag-end at the coordinate `c` sets the selected
point to `c`, makes the resolving flag true and starts one reverse resolution of
`c`, while the last-used region and the search text (and the address cell and
the centred-once flag) are unchanged. -/
theorem tap_selects_point_only (m : MapPicker) (c : Coords) :
    (onMapPress c m).1.coord = some c ∧
    (onMapPress c m).1.loadingAddr = true ∧
    (onMapPress c m).2 = [Request.reverseGeocode c] ∧
    (onMapPress c m).1.lastRegion = m.lastRegion ∧
    (onMapPress c m).1.search = m.search ∧
    (onMapPress c m).1.address = m.address ∧
    (onMapPress c m).1.centeredOnce = m.centeredOnce ∧
    onDragEnd c m = onMapPress c m ∧
    (onDragEnd c m).1.coord = some c ∧
    (onDragEnd c m).1.loadingAddr = true ∧
    (onDragEnd c m).1.lastRegion = m.lastRegion ∧
    (onDragEnd c m).1.search = m.search :=
  ⟨rfl, rfl, rfl, rfl, rfl, rfl, rfl, rfl, rfl, rfl, rfl, rfl⟩

/-! ### The route preview -/

theorem fetchRouteOSRM_rejected_iff (fetch : RouteQuery → Outcome HttpResponse)
    (origin destination : LatLng) (res : HttpResponse)
    (hres : fetch { o := (origin.longitude, origin.latitude)
                    d := (destination.longitude, destination.latitude) } =
      Outcome.resolved res) :
    fetchRouteOSRM fetch origin destination = Outcome.rejected ↔
      res.ok = false ∨ firstRoute res = none := by
  unfold fetchRouteOSRM firstRoute
  rw [hres]
  rcases res with ⟨ok, status, json⟩
  cases ok with
  | false => simp
  | true =>
    cases json with
    | rejected => simp
    | resolved data =>
      rcases data with ⟨routes⟩
      rcases routes with _ | (_ | ⟨route, rest⟩) <;> simp

/-- C27: when the route computation fails (the network call raises an error, or
the response status is not ok, or the response lists no route) and the screen was
not left meanwhile, `buildRoute` leaves the line equal to the two points origin,
destination, the summary null and `loading` false, and shows the alert. -/
theorem buildRoute_failure_straight_line (fetch : RouteQuery → Outcome HttpResponse)
    (origin destination : LatLng) (s : RoutePreview)
    (hfail :
      fetch { o := (origin.longitude, origin.latitude)
              d := (destination.longitude, destination.latitude) } = Outcome.rejected ∨
      ∃ res : HttpResponse,
        fetch { o := (origin.longitude, origin.latitude)
                d := (destination.longitude, destination.latitude) } = Outcome.resolved res ∧
        (res.ok = false ∨ firstRoute res = none)) :
    fetchRouteOSRM fetch origin destination = Outcome.rejected ∧
    (buildRoute fetch false (some origin) (some destination) s).cells.line =
      [origin, destination] ∧
    (buildRoute fetch false (some origin) (some destination) s).cells.summary = none ∧
    (buildRoute fetch false (some origin) (some destination) s).cells.loading = false ∧
    (buildRoute fetch false (some origin) (some destination) s).cells.expanded = s.expanded ∧
    (buildRoute fetch false (some origin) (some destination) s).alert =
      some { title := "Маршрут"
             message := "Не удалось получить маршрут по дорогам. Показана прямая линия." } := by
  have hrej : fetchRouteOSRM fetch origin destination = Outcome.rejected := by
    rcases hfail with h | ⟨res, hres, h⟩
    · unfold fetchRouteOSRM
      rw [h]
    · exact (fetchRouteOSRM_rejected_iff fetch origin destination res hres).mpr h
  refine ⟨hrej, ?_, ?_, ?_, ?_, ?_⟩ <;> simp [buildRoute, buildRouteFinish, hrej]

theorem buildRoute_failure_straight_line_witness :
    ((fun _ => Outcome.resolved sampleFailure : RouteQuery → Outcome HttpResponse)
        { o := ((30.33 : ℚ), (59.93 : ℚ)), d := ((30.40 : ℚ), (59.95 : ℚ)) } =
        Outcome.rejected ∨
      ∃ res : HttpResponse,
        (fun _ => Outcome.resolved sampleFailure : RouteQuery → Outcome HttpResponse)
          { o := ((30.33 : ℚ), (59.93 : ℚ)), d := ((30.40 : ℚ), (59.95 : ℚ)) } =
          Outcome.resolved res ∧
        (res.ok = false ∨ firstRoute res = none)) ∧
    (buildRoute (fun _ => Outcome.resolved sampleFailure) false
        (some { latitude := 59.93, longitude := 30.33 })
        (some { latitude := 59.95, longitude := 30.40 }) initialRoutePreview).cells.line =
      [{ latitude := 59.93, longitude := 30.33 }, { latitude := 59.95, longitude := 30.40 }] ∧
    (buildRoute (fun _ => Outcome.resolved sampleFailure) false
        (some { latitude := 59.93, longitude := 30.33 })
        (some { latitude := 59.95, longitude := 30.40 }) initialRoutePreview).cells.summary =
      none ∧
    (buildRoute (fun _ => Outcome.resolved sampleFailure) false
        (some { latitude := 59.93, longitude := 30.33 })
        (some { latitude := 59.95, longitude := 30.40 }) initialRoutePreview).cells.loading =
      false :=
  ⟨Or.inr ⟨sampleFailure, rfl, Or.inl rfl⟩,
    (buildRoute_failure_straight_line (fun _ => Outcome.resolved sampleFailure)
      { latitude := 59.93, longitude := 30.33 } { latitude := 59.95, longitude := 30.40 }
      initialRoutePreview (Or.inr ⟨sampleFailure, rfl, Or.inl rfl⟩)).2.1,
    (buildRoute_failure_straight_line (fun _ => Outcome.resolved sampleFailure)
      { latitude := 59.93, longitude := 30.33 } { latitude := 59.95, longitude := 30.40 }
      initialRoutePreview (Or.inr ⟨sampleFailure, rfl, Or.inl rfl⟩)).2.2.1,
    (buildRoute_failure_straight_line (fun _ => Outcome.resolved sampleFailure)
      { latitude := 59.93, longitude := 30.33 } { latitude := 59.95, longitude := 30.40 }
      initialRoutePreview (Or.inr ⟨sampleFailure, rfl, Or.inl rfl⟩)).2.2.2.1⟩

/-- C30: for a response with status ok whose body lists at least one route,
`fetchRouteOSRM` returns a coordinate list of the same length and order as the
geometry of the first route, whose `i`-th element has for latitude the second
component and for longitude the first component of the `i`-th `[lon, lat]` pair,
with `distanceKm = distance / 1000` and `durationMin = duration / 60`. For a
response received it raises an error exactly when the status is not ok or the
response has no route. -/
theorem fetchRouteOSRM_result (fetch : RouteQuery → Outcome HttpResponse)
    (origin destination : LatLng) (res : HttpResponse) (route : OsrmRoute)
    (hres : fetch { o := (origin.longitude, origin.latitude)
                    d := (destination.longitude, destination.latitude) } =
      Outcome.resolved res)
    (hok : res.ok = true) (hroute : firstRoute res = some route) :
    ∃ r : RouteResult,
      fetchRouteOSRM fetch origin destination = Outcome.resolved r ∧
      r.coords.length = route.coordinates.length ∧
      (∀ (i : Nat) (p : ℚ × ℚ), route.coordinates[i]? = some p →
        r.coords[i]? = some { latitude := p.2, longitude := p.1 }) ∧
      r.distanceKm = route.distance / 1000 ∧
      r.durationMin = route.duration / 60 ∧
      (∀ res' : HttpResponse,
        fetch { o := (origin.longitude, origin.latitude)
                d := (destination.longitude, destination.latitude) } =
          Outcome.resolved res' →
        (fetchRouteOSRM fetch origin destination = Outcome.rejected ↔
          res'.ok = false ∨ firstRoute res' = none)) := by
  refine ⟨{ coords := route.coordinates.map (fun p => { latitude := p.2, longitude := p.1 })
            distanceKm := route.distance / 1000
            durationMin := route.duration / 60 }, ?_, ?_, ?_, rfl, rfl, ?_⟩
  · unfold fetchRouteOSRM
    rw [hres]
    unfold firstRoute at hroute
    rcases res with ⟨ok, status, json⟩
    simp only at hok
    subst hok
    cases json with
    | rejected => simp at hroute
    | resolved data =>
      rcases data with ⟨routes⟩
      rcases routes with _ | (_ | ⟨r0, rest⟩)
      · simp at hroute
      · simp at hroute
      · simp only [Option.some.injEq] at hroute
        simp [hroute]
  · simp
  · intro i p hp
    simp [List.getElem?_map, hp]
  · intro res' hres'
    exact fetchRouteOSRM_rejected_iff fetch origin destination res' hres'

theorem fetchRouteOSRM_result_witness :
    ∃ r : RouteResult,
      fetchRouteOSRM (fun _ => Outcome.resolved sampleResponse)
        { latitude := 59.93, longitude := 30.33 } { latitude := 59.95, longitude := 30.40 } =
        Outcome.resolved r ∧
      r.coords.length = 3 ∧
      r.distanceKm = 5400 / 1000 ∧
      r.durationMin = 780 / 60 := by
  obtain ⟨r, h1, h2, _, h4, h5, _⟩ :=
    fetchRouteOSRM_result (fun _ => Outcome.resolved sampleResponse)
      { latitude := 59.93, longitude := 30.33 } { latitude := 59.95, longitude := 30.40 }
      sampleResponse
      { coordinates := [(30.33, 59.93), (30.36, 59.94), (30.40, 59.95)]
        distance := 5400
        duration := 780 }
      rfl rfl rfl
  exact ⟨r, h1, h2, h4, h5⟩

/-! ### Endpoints have coordinates -/

theorem EndpointsResolved_commitRender (prev next : Screen) (h : EndpointsResolved next) :
    EndpointsResolved (commitRender prev next) := by
  unfold commitRender
  split_ifs
  · exact h
  · exact h

theorem EndpointsResolved_of_eq (s t : Screen) (h : EndpointsResolved s)
    (h1 : t.from_ = s.from_) (h2 : t.fromCoords = s.fromCoords) (h3 : t.to_ = s.to_)
    (h4 : t.toCoords = s.toCoords) (h5 : t.activeOrder = s.activeOrder) :
    EndpointsResolved t := by
  unfold EndpointsResolved
  rw [h1, h2, h3, h4, h5]
  exact h

theorem EndpointsResolved_resetForm (now : JsDate) (s : Screen)
    (h : ∀ o : Order, s.activeOrder = some o → o.fromCoords ≠ none ∧ o.toCoords ≠ none) :
    EndpointsResolved (resetForm now s) :=
  ⟨fun hne => absurd rfl hne, fun hne => absurd rfl hne, h⟩

theorem EndpointsResolved_initial (now : JsDate) : EndpointsResolved (mountScreen now) :=
  ⟨fun hne => absurd rfl hne, fun hne => absurd rfl hne, fun o h => by
    simp [mountScreen, vehGroupEffect, initialScreen] at h⟩

theorem label_ne_empty_of_canCreate (s : Screen) (h : canCreate s = true) :
    s.from_ ≠ "" ∧ s.to_ ≠ "" := by
  obtain ⟨hf, ht, _⟩ := (canCreate_iff s).mp h
  constructor
  · intro h0; rw [h0] at hf; exact hf jsTrim_empty
  · intro h0; rw [h0] at ht; exact ht jsTrim_empty

theorem EndpointsResolved_step (toISOString : JsDate → String) (s : Screen) (op : Op)
    (h : EndpointsResolved s) : EndpointsResolved (step toISOString s op) := by
  cases op with
  | pressGroup i =>
    exact EndpointsResolved_commitRender _ _ (EndpointsResolved_of_eq s _ h rfl rfl rfl rfl rfl)
  | openEmp =>
    exact EndpointsResolved_commitRender _ _ (EndpointsResolved_of_eq s _ h rfl rfl rfl rfl rfl)
  | updateEmployees list =>
    exact EndpointsResolved_commitRender _ _ (EndpointsResolved_of_eq s _ h rfl rfl rfl rfl rfl)
  | closeEmp =>
    exact EndpointsResolved_commitRender _ _ (EndpointsResolved_of_eq s _ h rfl rfl rfl rfl rfl)
  | openMap t =>
    exact EndpointsResolved_commitRender _ _ (EndpointsResolved_of_eq s _ h rfl rfl rfl rfl rfl)
  | confirmPick coords address =>
    apply EndpointsResolved_commitRender
    obtain ⟨hf, ht, ho⟩ := h
    by_cases htar : s.mapModal.target = Target.from_
    · refine ⟨fun _ => ?_, ?_, ?_⟩
      · simp [onCloseMap, onPick, htar]
      · simpa [onCloseMap, onPick, htar] using ht
      · simpa [onCloseMap, onPick, htar] using ho
    · refine ⟨?_, fun _ => ?_, ?_⟩
      · simpa [onCloseMap, onPick, htar] using hf
      · simp [onCloseMap, onPick, htar]
      · simpa [onCloseMap, onPick, htar] using ho
  | cancelPick =>
    exact EndpointsResolved_commitRender _ _ (EndpointsResolved_of_eq s _ h rfl rfl rfl rfl rfl)
  | editNotes text =>
    exact EndpointsResolved_commitRender _ _ (EndpointsResolved_of_eq s _ h rfl rfl rfl rfl rfl)
  | openDate =>
    exact EndpointsResolved_commitRender _ _ (EndpointsResolved_of_eq s _ h rfl rfl rfl rfl rfl)
  | openTime =>
    exact EndpointsResolved_commitRender _ _ (EndpointsResolved_of_eq s _ h rfl rfl rfl rfl rfl)
  | changeDate setFullYear d =>
    apply EndpointsResolved_commitRender
    cases d <;> exact EndpointsResolved_of_eq s _ h rfl rfl rfl rfl rfl
  | changeTime setHours t =>
    apply EndpointsResolved_commitRender
    cases t <;> exact EndpointsResolved_of_eq s _ h rfl rfl rfl rfl rfl
  | pressCreate x nowCreated nowReset =>
    show EndpointsResolved (commitRender s (createOrder toISOString x nowCreated nowReset s).1)
    apply EndpointsResolved_commitRender
    unfold createOrder
    by_cases hc : canCreate s = true
    · simp only [hc, Bool.not_true, Bool.false_eq_true, if_false]
      apply EndpointsResolved_resetForm
      intro o ho
      simp only [Option.some.injEq] at ho
      rw [← ho]
      obtain ⟨hf, ht⟩ := label_ne_empty_of_canCreate s hc
      exact ⟨h.1 hf, h.2.1 ht⟩
    · simp only [hc, Bool.not_false, if_true]
      exact h
  | confirmCancel nowReset =>
    apply EndpointsResolved_commitRender
    apply EndpointsResolved_resetForm
    intro o ho
    simp at ho

theorem EndpointsResolved_run (toISOString : JsDate → String) (ops : List Op) :
    ∀ s : Screen, EndpointsResolved s → EndpointsResolved (run toISOString s ops) := by
  induction ops with
  | nil => intro s h; exact h
  | cons op ops ih =>
    intro s h
    exact ih _ (EndpointsResolved_step toISOString s op h)

theorem pressRoutePreview_navigates (o : Order) (hf : o.fromCoords ≠ none)
    (ht : o.toCoords ≠ none) :
    ∃ f t : Coords, o.fromCoords = some f ∧ o.toCoords = some t ∧
      pressRoutePreview o = RoutePress.navigate o.from_ o.to_ f t := by
  obtain ⟨f, hf'⟩ := Option.ne_none_iff_exists'.mp hf
  obtain ⟨t, ht'⟩ := Option.ne_none_iff_exists'.mp ht
  exact ⟨f, t, hf', ht', by simp [pressRoutePreview, hf', ht']⟩

/-- C28: in every state the form reaches from the mounted screen by any sequence
of operations (map picks delivered by `confirm`, cancel with its reset, commit,
and the others), an endpoint whose address label is non-empty has a coordinate;
hence the active order and every order an operation creates in such a state has
both `fromCoords` and `toCoords`, and a press on its route-preview button
navigates to the route preview and never takes the branch of the alert. -/
theorem endpoints_always_resolved (toISOString : JsDate → String) (now : JsDate)
    (ops : List Op) :
    ((run toISOString (mountScreen now) ops).from_ ≠ "" →
      (run toISOString (mountScreen now) ops).fromCoords ≠ none) ∧
    ((run toISOString (mountScreen now) ops).to_ ≠ "" →
      (run toISOString (mountScreen now) ops).toCoords ≠ none) ∧
    (∀ o : Order, (run toISOString (mountScreen now) ops).activeOrder = some o →
      ∃ f t : Coords, o.fromCoords = some f ∧ o.toCoords = some t ∧
        pressRoutePreview o = RoutePress.navigate o.from_ o.to_ f t) ∧
    (∀ (op : Op) (o : Order),
      createdOrder toISOString (run toISOString (mountScreen now) ops) op = some o →
      ∃ f t : Coords, o.fromCoords = some f ∧ o.toCoords = some t ∧
        pressRoutePreview o = RoutePress.navigate o.from_ o.to_ f t) := by
  have hinv := EndpointsResolved_run toISOString ops (mountScreen now)
    (EndpointsResolved_initial now)
  refine ⟨hinv.1, hinv.2.1, ?_, ?_⟩
  · intro o ho
    obtain ⟨hf, ht⟩ := hinv.2.2 o ho
    exact pressRoutePreview_navigates o hf ht
  · intro op o ho
    cases op with
    | pressCreate x nowCreated nowReset =>
      simp only [createdOrder] at ho
      split_ifs at ho with hc
      simp only [Option.some.injEq] at ho
      obtain ⟨hf, ht⟩ := label_ne_empty_of_canCreate _ hc
      apply pressRoutePreview_navigates
      · rw [← ho]; exact hinv.1 hf
      · rw [← ho]; exact hinv.2.1 ht
    | _ => simp [createdOrder] at ho

/-! ### The history filter -/

theorem filtered_eq_filter (toLowerCase : String → String) (data : List Order)
    (tab q : String) :
    filtered toLowerCase data tab q =
      data.filter (fun o => decide (matchesHistorySpec toLowerCase tab q o)) := by
  unfold filtered
  apply List.filter_congr
  intro o _
  rw [Bool.eq_iff_iff, decide_eq_true_iff]
  unfold matchesHistorySpec containsIgnoringCase
  by_cases htab : tab = "all"
  · by_cases hq : toLowerCase (jsTrim q) = ""
    · simp [htab, hq]
    · simp [htab, hq, jsIncludes_iff, List.any_eq_true, or_assoc]
  · by_cases hs : o.status = tab
    · by_cases hq : toLowerCase (jsTrim q) = ""
      · simp [htab, hs, hq]
      · simp [htab, hs, hq, jsIncludes_iff, List.any_eq_true, or_assoc]
    · simp [htab, hs]

/-- C29: for every order list, status tab and query, the history filter returns
the orders, in their original order, whose status is the tab (any status for the
tab `"all"`) and, when the trimmed lower-cased query is non-empty, whose id
contains it or whose `from` or `to` label or some employee name contains the
query case-insensitively; with the tab `"all"` and a blank query the result is
the whole list. -/
theorem filtered_history (toLowerCase : String → String) (data : List Order) (tab q : String)
    (h0 : toLowerCase "" = "") :
    filtered toLowerCase data tab q =
      data.filter (fun o => decide (matchesHistorySpec toLowerCase tab q o)) ∧
    (∀ o : Order, o ∈ filtered toLowerCase data tab q ↔
      o ∈ data ∧ matchesHistorySpec toLowerCase tab q o) ∧
    (filtered toLowerCase data tab q).Sublist data ∧
    (jsTrim q = "" → filtered toLowerCase data "all" q = data) := by
  have heq := filtered_eq_filter toLowerCase data tab q
  refine ⟨heq, ?_, ?_, ?_⟩
  · intro o
    rw [heq, List.mem_filter, decide_eq_true_iff]
  · rw [heq]
    exact List.filter_sublist _
  · intro hq
    rw [filtered_eq_filter, List.filter_eq_self]
    intro o _
    rw [decide_eq_true_iff]
    exact ⟨Or.inl rfl, Or.inl (by rw [hq, h0])⟩

theorem filtered_history_witness :
    sampleLower "" = "" ∧
    filtered sampleLower MOCK "all" " ЛЕНИНА " =
      MOCK.filter (fun o => decide (matchesHistorySpec sampleLower "all" " ЛЕНИНА " o)) ∧
    (filtered sampleLower MOCK "all" " ЛЕНИНА ").map (fun o => o.id) = ["52134"] ∧
    (filtered sampleLower MOCK "cancelled" "").map (fun o => o.id) = ["52135"] :=
  ⟨by decide, (filtered_history sampleLower MOCK "all" " ЛЕНИНА " (by decide)).1,
    by decide, by decide⟩

end AirlineHome
